import Mathlib

/-!
Verification development for a Rust whitted-style ray tracer.

Modelling conventions (used throughout):

* `f64` values are modelled as exact rationals (`ℚ`).  All f64 arithmetic in
  the claims under study is exact-arithmetic control flow, so the idealisation
  `f64 ≈ ℚ` is applied uniformly; the two places where IEEE special values
  matter (the `NaN`-aware intersection ordering of `intersections.rs`, and the
  `±∞`/`NaN` slab arithmetic of `cube.rs`) get dedicated carrier types `FT`
  and `XF` that model those special values explicitly.
* `f64::sqrt` is modelled by `qsqrt`, which is exact on rationals that are
  squares of rationals and returns `0` otherwise; every concrete evaluation in
  this file only takes square arguments, and no quantified theorem depends on
  the value of `qsqrt` off that domain.
* `f64::powf` is modelled by `powf`, exact for integer exponents (the only
  exponent occurring in the program is the material shininess, `200.0`).
* Rust division by zero yields `±∞`/`NaN`; rational division by zero yields
  `0`.  All division sites in the modelled code are guarded by the source
  (`|d| >= EPSILON` or nonzero denominators), so the difference is unexercised.
* Mutation of an `Intersections` buffer is modelled by explicit state passing:
  a shape `intersect` returns the list of pushes it performs, and the buffer
  state is the fold of `push` over those.
-/

namespace RT

/-- `EPSILON` from `math/epsilon.rs` (`1.0e-5`). -/
def EPSILON : ℚ := 1 / 100000

/-- Model of `f64::round` (round half away from zero) on exact rationals. -/
def roundAway (a : ℚ) : ℤ :=
  if 0 ≤ a then Int.floor (a + 1 / 2) else - Int.floor (-a + 1 / 2)

/-- `round` from `math/epsilon.rs`: `(a * 100000.0).round() / 100000.0`. -/
def round5 (a : ℚ) : ℚ :=
  (roundAway (a * 100000) : ℚ) / 100000

/-- `ApproxEq for f64` from `math/epsilon.rs`. -/
def approxEq (a b : ℚ) : Bool :=
  let dif := |round5 a - round5 b|
  let rounded := (roundAway (dif * 100000) : ℚ) / 100000
  rounded < EPSILON

/-- Model of `f64::sqrt`, exact on rational squares.  A nonneg rational `q`
in lowest terms is a rational square iff numerator and denominator are perfect
squares (`qsqrt_mul_self` below).  On non-squares (and negatives, where Rust
yields `NaN`) we return `0`; no evaluation in this file reaches that branch. -/
def qsqrt (q : ℚ) : ℚ :=
  let n := Nat.sqrt q.num.natAbs
  let d := Nat.sqrt q.den
  if 0 ≤ q.num ∧ n * n = q.num.natAbs ∧ d * d = q.den then (n : ℚ) / (d : ℚ) else 0

/-- `qsqrt` is exact on squares of nonnegative rationals. -/
theorem qsqrt_mul_self (r : ℚ) (h0 : 0 ≤ r) : qsqrt (r * r) = r := by
  have hnum : (r * r).num = r.num * r.num := Rat.mul_self_num r
  have hden : (r * r).den = r.den * r.den := Rat.mul_self_den r
  have hnn : 0 ≤ r.num := Rat.num_nonneg.mpr h0
  have hcast : ((r.num.natAbs : ℕ) : ℚ) = ((r.num : ℤ) : ℚ) := by
    rw [Int.cast_natAbs]
    exact_mod_cast abs_of_nonneg hnn
  simp only [qsqrt, hnum, hden, Int.natAbs_mul, Nat.sqrt_eq, and_true, true_and,
    eq_self_iff_true]
  rw [if_pos (mul_nonneg hnn hnn)]
  rw [hcast]
  exact Rat.num_div_den r

/-- Evaluation form of `qsqrt_mul_self` for concrete square arguments. -/
theorem qsqrt_val (q r : ℚ) (h0 : 0 ≤ r) (h : r * r = q) : qsqrt q = r := by
  rw [← h]; exact qsqrt_mul_self r h0

/-- Model of `f64::powf`, exact for integer exponents.  The only exponent the
program uses is the material shininess (default `200.0`). -/
def powf (b e : ℚ) : ℚ :=
  if e.den = 1 then b ^ e.num else 0

/-- Truncation toward zero, as the `as u8`/`as usize` casts truncate. -/
def truncQ (q : ℚ) : ℤ :=
  if 0 ≤ q then Int.floor q else Int.ceil q

/-- `Color` from `draw/color.rs` (three unbounded f64 channels). -/
structure Color where
  r : ℚ
  g : ℚ
  b : ℚ
deriving DecidableEq, Repr

namespace Color

def new (r g b : ℚ) : Color := ⟨r, g, b⟩

/-- `Color::black()`. -/
def black : Color := ⟨0, 0, 0⟩

/-- `Color::white()`. -/
def white : Color := ⟨1, 1, 1⟩

/-- `Color::red()`. -/
def red : Color := ⟨1, 0, 0⟩

instance : Add Color := ⟨fun a c => ⟨a.r + c.r, a.g + c.g, a.b + c.b⟩⟩

instance : Sub Color := ⟨fun a c => ⟨a.r - c.r, a.g - c.g, a.b - c.b⟩⟩

/-- Component-wise colour product (`impl Mul<Color> for Color`). -/
instance : Mul Color := ⟨fun a c => ⟨a.r * c.r, a.g * c.g, a.b * c.b⟩⟩

/-- `impl Mul<f64> for Color`. -/
def mulS (c : Color) (s : ℚ) : Color := ⟨c.r * s, c.g * s, c.b * s⟩

theorem add_def (a c : Color) : a + c = ⟨a.r + c.r, a.g + c.g, a.b + c.b⟩ := rfl

theorem sub_def (a c : Color) : a - c = ⟨a.r - c.r, a.g - c.g, a.b - c.b⟩ := rfl

theorem mul_def (a c : Color) : a * c = ⟨a.r * c.r, a.g * c.g, a.b * c.b⟩ := rfl

@[simp] theorem add_r (a c : Color) : (a + c).r = a.r + c.r := rfl

@[simp] theorem add_g (a c : Color) : (a + c).g = a.g + c.g := rfl

@[simp] theorem add_b (a c : Color) : (a + c).b = a.b + c.b := rfl

@[simp] theorem sub_r (a c : Color) : (a - c).r = a.r - c.r := rfl

@[simp] theorem sub_g (a c : Color) : (a - c).g = a.g - c.g := rfl

@[simp] theorem sub_b (a c : Color) : (a - c).b = a.b - c.b := rfl

@[simp] theorem mul_r (a c : Color) : (a * c).r = a.r * c.r := rfl

@[simp] theorem mul_g (a c : Color) : (a * c).g = a.g * c.g := rfl

@[simp] theorem mul_b (a c : Color) : (a * c).b = a.b * c.b := rfl

theorem add_black (c : Color) : c + black = c := by
  cases c; simp [black, add_def]

theorem black_add (c : Color) : black + c = c := by
  cases c; simp [black, add_def]

theorem add_comm (a c : Color) : a + c = c + a := by
  cases a; cases c; simp [add_def]; constructor
  · ring
  · constructor <;> ring

theorem add_assoc (a c d : Color) : a + c + d = a + (c + d) := by
  cases a; cases c; cases d; simp [add_def]; constructor
  · ring
  · constructor <;> ring

end Color

/-- `Point` from `math/point.rs`. -/
structure Point where
  x : ℚ
  y : ℚ
  z : ℚ
deriving DecidableEq, Repr

/-- `Vector` from `math/vector.rs` (named `Vect` here to avoid clashing with
the mathlib vector type). -/
structure Vect where
  x : ℚ
  y : ℚ
  z : ℚ
deriving DecidableEq, Repr

namespace Vect

def new (x y z : ℚ) : Vect := ⟨x, y, z⟩

instance : Neg Vect := ⟨fun v => ⟨-v.x, -v.y, -v.z⟩⟩

instance : Add Vect := ⟨fun a b => ⟨a.x + b.x, a.y + b.y, a.z + b.z⟩⟩

instance : Sub Vect := ⟨fun a b => ⟨a.x - b.x, a.y - b.y, a.z - b.z⟩⟩

/-- `impl Mul<f64> for Vector`. -/
def mulS (v : Vect) (s : ℚ) : Vect := ⟨v.x * s, v.y * s, v.z * s⟩

theorem neg_def (v : Vect) : -v = ⟨-v.x, -v.y, -v.z⟩ := rfl

theorem add_eq (a b : Vect) : a + b = ⟨a.x + b.x, a.y + b.y, a.z + b.z⟩ := rfl

theorem sub_eq (a b : Vect) : a - b = ⟨a.x - b.x, a.y - b.y, a.z - b.z⟩ := rfl

@[simp] theorem add_x (a b : Vect) : (a + b).x = a.x + b.x := rfl

@[simp] theorem add_y (a b : Vect) : (a + b).y = a.y + b.y := rfl

@[simp] theorem add_z (a b : Vect) : (a + b).z = a.z + b.z := rfl

@[simp] theorem sub_x (a b : Vect) : (a - b).x = a.x - b.x := rfl

@[simp] theorem sub_y (a b : Vect) : (a - b).y = a.y - b.y := rfl

@[simp] theorem sub_z (a b : Vect) : (a - b).z = a.z - b.z := rfl

@[simp] theorem neg_x (a : Vect) : (-a).x = -a.x := rfl

@[simp] theorem neg_y (a : Vect) : (-a).y = -a.y := rfl

@[simp] theorem neg_z (a : Vect) : (-a).z = -a.z := rfl

/-- Dot product (`impl Mul for Vector`). -/
def dot (a b : Vect) : ℚ := a.x * b.x + a.y * b.y + a.z * b.z

/-- `impl Div<f64> for Vector`. -/
def divS (v : Vect) (s : ℚ) : Vect := ⟨v.x / s, v.y / s, v.z / s⟩

/-- `Vector::magnitude`. -/
def magnitude (v : Vect) : ℚ := qsqrt (v.x ^ 2 + v.y ^ 2 + v.z ^ 2)

/-- `Vector::normalize`. -/
def normalize (v : Vect) : Vect := v.divS v.magnitude

/-- `Vector::reflect`: `self − (normal * 2) * (self · normal)`. -/
def reflect (v normal : Vect) : Vect := v - (normal.mulS 2).mulS (v.dot normal)

/-- `Vector::cross`. -/
def cross (a b : Vect) : Vect :=
  ⟨a.y * b.z - a.z * b.y, a.z * b.x - a.x * b.z, a.x * b.y - a.y * b.x⟩

end Vect

namespace Point

def new (x y z : ℚ) : Point := ⟨x, y, z⟩

/-- `impl Sub for Point` (point − point = vector). -/
def subP (a b : Point) : Vect := ⟨a.x - b.x, a.y - b.y, a.z - b.z⟩

/-- `impl Add<Vector> for Point`. -/
def addV (p : Point) (v : Vect) : Point := ⟨p.x + v.x, p.y + v.y, p.z + v.z⟩

/-- `impl Sub<Vector> for Point`. -/
def subV (p : Point) (v : Vect) : Point := ⟨p.x - v.x, p.y - v.y, p.z - v.z⟩

end Point

/-- Modelled from the spec: the 4×4 row-major f64 matrix (`Matrix4`, §3) used
by the current revision of the program.  The `src/` snapshot only contains a
stale dynamic-size `math/matrix.rs`; the matrix type actually used by the
cited modules (`Matrix::identity`, matrix·matrix, matrix·point, matrix·vector,
`inverse` by cofactor expansion, `transpose`) is modelled here from §3 of the
specification. -/
structure Mat4 where
  m00 : ℚ
  m01 : ℚ
  m02 : ℚ
  m03 : ℚ
  m10 : ℚ
  m11 : ℚ
  m12 : ℚ
  m13 : ℚ
  m20 : ℚ
  m21 : ℚ
  m22 : ℚ
  m23 : ℚ
  m30 : ℚ
  m31 : ℚ
  m32 : ℚ
  m33 : ℚ
deriving DecidableEq, Repr

namespace Mat4

/-- `Matrix::identity()`. -/
def identity : Mat4 :=
  ⟨1, 0, 0, 0, 0, 1, 0, 0, 0, 0, 1, 0, 0, 0, 0, 1⟩

/-- Matrix multiplication. -/
def mul (a b : Mat4) : Mat4 where
  m00 := a.m00 * b.m00 + a.m01 * b.m10 + a.m02 * b.m20 + a.m03 * b.m30
  m01 := a.m00 * b.m01 + a.m01 * b.m11 + a.m02 * b.m21 + a.m03 * b.m31
  m02 := a.m00 * b.m02 + a.m01 * b.m12 + a.m02 * b.m22 + a.m03 * b.m32
  m03 := a.m00 * b.m03 + a.m01 * b.m13 + a.m02 * b.m23 + a.m03 * b.m33
  m10 := a.m10 * b.m00 + a.m11 * b.m10 + a.m12 * b.m20 + a.m13 * b.m30
  m11 := a.m10 * b.m01 + a.m11 * b.m11 + a.m12 * b.m21 + a.m13 * b.m31
  m12 := a.m10 * b.m02 + a.m11 * b.m12 + a.m12 * b.m22 + a.m13 * b.m32
  m13 := a.m10 * b.m03 + a.m11 * b.m13 + a.m12 * b.m23 + a.m13 * b.m33
  m20 := a.m20 * b.m00 + a.m21 * b.m10 + a.m22 * b.m20 + a.m23 * b.m30
  m21 := a.m20 * b.m01 + a.m21 * b.m11 + a.m22 * b.m21 + a.m23 * b.m31
  m22 := a.m20 * b.m02 + a.m21 * b.m12 + a.m22 * b.m22 + a.m23 * b.m32
  m23 := a.m20 * b.m03 + a.m21 * b.m13 + a.m22 * b.m23 + a.m23 * b.m33
  m30 := a.m30 * b.m00 + a.m31 * b.m10 + a.m32 * b.m20 + a.m33 * b.m30
  m31 := a.m30 * b.m01 + a.m31 * b.m11 + a.m32 * b.m21 + a.m33 * b.m31
  m32 := a.m30 * b.m02 + a.m31 * b.m12 + a.m32 * b.m22 + a.m33 * b.m32
  m33 := a.m30 * b.m03 + a.m31 * b.m13 + a.m32 * b.m23 + a.m33 * b.m33

/-- Matrix transpose. -/
def transpose (a : Mat4) : Mat4 :=
  ⟨a.m00, a.m10, a.m20, a.m30,
   a.m01, a.m11, a.m21, a.m31,
   a.m02, a.m12, a.m22, a.m32,
   a.m03, a.m13, a.m23, a.m33⟩

/-- 3×3 determinant helper for the cofactor expansion. -/
def det3 (a b c d e f g h i : ℚ) : ℚ :=
  a * (e * i - f * h) - b * (d * i - f * g) + c * (d * h - e * g)

/-- 4×4 determinant by cofactor expansion along the first row. -/
def det (m : Mat4) : ℚ :=
  m.m00 * det3 m.m11 m.m12 m.m13 m.m21 m.m22 m.m23 m.m31 m.m32 m.m33
    - m.m01 * det3 m.m10 m.m12 m.m13 m.m20 m.m22 m.m23 m.m30 m.m32 m.m33
    + m.m02 * det3 m.m10 m.m11 m.m13 m.m20 m.m21 m.m23 m.m30 m.m31 m.m33
    - m.m03 * det3 m.m10 m.m11 m.m12 m.m20 m.m21 m.m22 m.m30 m.m31 m.m32

/-- Inverse by cofactor expansion (adjugate over determinant), as specified.
The entry at row `i`, column `j` of the inverse is `cofactor j i / det`. -/
def inverse (m : Mat4) : Mat4 :=
  let d := m.det
  let c00 := det3 m.m11 m.m12 m.m13 m.m21 m.m22 m.m23 m.m31 m.m32 m.m33
  let c01 := - det3 m.m10 m.m12 m.m13 m.m20 m.m22 m.m23 m.m30 m.m32 m.m33
  let c02 := det3 m.m10 m.m11 m.m13 m.m20 m.m21 m.m23 m.m30 m.m31 m.m33
  let c03 := - det3 m.m10 m.m11 m.m12 m.m20 m.m21 m.m22 m.m30 m.m31 m.m32
  let c10 := - det3 m.m01 m.m02 m.m03 m.m21 m.m22 m.m23 m.m31 m.m32 m.m33
  let c11 := det3 m.m00 m.m02 m.m03 m.m20 m.m22 m.m23 m.m30 m.m32 m.m33
  let c12 := - det3 m.m00 m.m01 m.m03 m.m20 m.m21 m.m23 m.m30 m.m31 m.m33
  let c13 := det3 m.m00 m.m01 m.m02 m.m20 m.m21 m.m22 m.m30 m.m31 m.m32
  let c20 := det3 m.m01 m.m02 m.m03 m.m11 m.m12 m.m13 m.m31 m.m32 m.m33
  let c21 := - det3 m.m00 m.m02 m.m03 m.m10 m.m12 m.m13 m.m30 m.m32 m.m33
  let c22 := det3 m.m00 m.m01 m.m03 m.m10 m.m11 m.m13 m.m30 m.m31 m.m33
  let c23 := - det3 m.m00 m.m01 m.m02 m.m10 m.m11 m.m12 m.m30 m.m31 m.m32
  let c30 := - det3 m.m01 m.m02 m.m03 m.m11 m.m12 m.m13 m.m21 m.m22 m.m23
  let c31 := det3 m.m00 m.m02 m.m03 m.m10 m.m12 m.m13 m.m20 m.m22 m.m23
  let c32 := - det3 m.m00 m.m01 m.m03 m.m10 m.m11 m.m13 m.m20 m.m21 m.m23
  let c33 := det3 m.m00 m.m01 m.m02 m.m10 m.m11 m.m12 m.m20 m.m21 m.m22
  ⟨c00 / d, c10 / d, c20 / d, c30 / d,
   c01 / d, c11 / d, c21 / d, c31 / d,
   c02 / d, c12 / d, c22 / d, c32 / d,
   c03 / d, c13 / d, c23 / d, c33 / d⟩

/-- Matrix · point (homogeneous `w = 1`). -/
def mulPoint (m : Mat4) (p : Point) : Point :=
  ⟨m.m00 * p.x + m.m01 * p.y + m.m02 * p.z + m.m03,
   m.m10 * p.x + m.m11 * p.y + m.m12 * p.z + m.m13,
   m.m20 * p.x + m.m21 * p.y + m.m22 * p.z + m.m23⟩

/-- Matrix · vector (homogeneous `w = 0`). -/
def mulVec (m : Mat4) (v : Vect) : Vect :=
  ⟨m.m00 * v.x + m.m01 * v.y + m.m02 * v.z,
   m.m10 * v.x + m.m11 * v.y + m.m12 * v.z,
   m.m20 * v.x + m.m21 * v.y + m.m22 * v.z⟩

end Mat4

/-- `Ray` as used by the cited modules: `(origin: Point, direction: Vector)`
with `position_at` and `with_transform` (spec §3; the `math/ray.rs` in the
snapshot is a stale tuple-based revision of the same record). -/
structure Ray where
  origin : Point
  direction : Vect
deriving DecidableEq, Repr

namespace Ray

def new (origin : Point) (direction : Vect) : Ray := ⟨origin, direction⟩

/-- `position_at(t) = origin + direction · t`. -/
def positionAt (r : Ray) (t : ℚ) : Point := r.origin.addV (r.direction.mulS t)

/-- `ray.with_transform(M) = (M · origin, M · direction)`. -/
def withTransform (r : Ray) (m : Mat4) : Ray :=
  ⟨m.mulPoint r.origin, m.mulVec r.direction⟩

end Ray

/-- `PatternType` from `render/pattern.rs`; the per-variant payloads of
`render/patterns.rs` are inlined as constructor fields.  The Perlin-noise
pattern is a standalone struct in the source (not a `PatternType` variant) and
is outside the scope of the claims. -/
inductive PatternType where
  | stripe (a b : Color)
  | solid (c : Color)
  | test
  | gradient (a b : Color)
  | ring (a b : Color)
  | checker (a b : Color)
deriving DecidableEq, Repr

/-- `Pattern` from `render/pattern.rs`. -/
structure Pattern where
  pattern : PatternType
  transformation : Mat4
  invTransform : Mat4
deriving DecidableEq, Repr

namespace Pattern

/-- `StripePattern::pattern_at`: `(point.x().floor().abs() as usize) % 2`. -/
def stripeAt (a b : Color) (point : Point) : Color :=
  if (Int.floor point.x).natAbs % 2 = 0 then a else b

/-- `GradientPattern::pattern_at`. -/
def gradientAt (a b : Color) (point : Point) : Color :=
  a + (b - a).mulS point.x

/-- `RingPattern::pattern_at`. -/
def ringAt (a b : Color) (point : Point) : Color :=
  let distance := qsqrt (point.x * point.x + point.z * point.z)
  if (Int.floor distance).natAbs % 2 = 0 then a else b

/-- `CheckerPattern::pattern_at`.  The source reduces the floor sum mod `2.0`
as an f64 (`sum % 2.0`, Rust `%` being the remainder with the sign of the
dividend) and compares to `0.0` with `approx_eq`. -/
def checkerAt (a b : Color) (point : Point) : Color :=
  let sum : ℤ := Int.floor point.x + Int.floor point.y + Int.floor point.z
  if approxEq ((Int.tmod sum 2 : ℤ) : ℚ) 0 then a else b

/-- `Pattern::pattern_at` dispatch. -/
def patternAt (p : Pattern) (point : Point) : Color :=
  match p.pattern with
  | .stripe a b => stripeAt a b point
  | .solid c => c
  | .test => ⟨point.x, point.y, point.z⟩
  | .gradient a b => gradientAt a b point
  | .ring a b => ringAt a b point
  | .checker a b => checkerAt a b point

/-- `Pattern::new_solid` (stores `Matrix::identity().inverse()`). -/
def newSolid (c : Color) : Pattern :=
  ⟨.solid c, Mat4.identity, Mat4.identity.inverse⟩

/-- `Pattern::new_stripe`. -/
def newStripe (a b : Color) : Pattern :=
  ⟨.stripe a b, Mat4.identity, Mat4.identity⟩

/-- `Pattern::new_test` (mirrors the stripe/gradient constructors). -/
def newTest : Pattern :=
  ⟨.test, Mat4.identity, Mat4.identity⟩

/-- `Pattern::default()`: solid white. -/
def defaultP : Pattern :=
  ⟨.solid Color.white, Mat4.identity, Mat4.identity⟩

end Pattern

/-- `Material` from `render/material.rs`. -/
structure Material where
  ambient : ℚ
  diffuse : ℚ
  specular : ℚ
  shininess : ℚ
  reflective : ℚ
  transparency : ℚ
  refractiveIndex : ℚ
  pattern : Pattern
deriving DecidableEq, Repr

namespace Material

/-- `Material::default()`. -/
def defaultM : Material :=
  ⟨1 / 10, 9 / 10, 9 / 10, 200, 0, 0, 1, Pattern.defaultP⟩

end Material

/-- Cached triangle data (`Triangle` from `render/shapes/triangle.rs`). -/
structure Tri where
  p1 : Point
  p2 : Point
  p3 : Point
  e1 : Vect
  e2 : Vect
  normal : Vect
deriving DecidableEq, Repr

/-- `Triangle::new`: caches `e1 = p2 − p1`, `e2 = p3 − p1` and
`normal = normalize(e2 × e1)`. -/
def Tri.new (p1 p2 p3 : Point) : Tri :=
  let e1 := p2.subP p1
  let e2 := p3.subP p1
  ⟨p1, p2, p3, e1, e2, (e2.cross e1).normalize⟩

mutual

/-- `Shape` from `render/shape.rs`.  The `Cube`, `Cylinder` and `Cone`
variants are not constructed by any code path referenced by the claims and
are omitted from this model; `Cube::intersect` is modelled separately over
extended floats (it pushes `±∞` values that do not fit the rational `t` used
here).  `SmoothTriangle` wraps a `Triangle` plus three vertex normals. -/
inductive Shape where
  | testShape
  | sphere
  | plane
  | triangle (t : Tri)
  | smoothTriangle (t : Tri) (n1 n2 n3 : Vect)
  | group (children : List Object)

/-- `Object` from `render/object.rs`: shape, material and the cached
transform matrices. -/
inductive Object where
  | mk (shape : Shape) (material : Material)
       (transformation invTransformation invTransposeTransformation : Mat4)

end

namespace Object

def shape : Object → Shape
  | .mk s _ _ _ _ => s

def material : Object → Material
  | .mk _ m _ _ _ => m

def transformation : Object → Mat4
  | .mk _ _ t _ _ => t

def invTransformation : Object → Mat4
  | .mk _ _ _ it _ => it

def invTransposeTransformation : Object → Mat4
  | .mk _ _ _ _ itt => itt

/-- `Object::get_material`. -/
def getMaterial (o : Object) : Material := o.material

/-- `with_shape`. -/
def withShape (o : Object) (s : Shape) : Object :=
  .mk s o.material o.transformation o.invTransformation o.invTransposeTransformation

/-- `Materialable::with_material` for `Object`. -/
def withMaterial (o : Object) (m : Material) : Object :=
  .mk o.shape m o.transformation o.invTransformation o.invTransposeTransformation

end Object

mutual

/-- Structural equality on shapes; see `Object.ptrEq`. -/
def Shape.beq : Shape → Shape → Bool
  | .testShape, .testShape => true
  | .sphere, .sphere => true
  | .plane, .plane => true
  | .triangle t1, .triangle t2 => t1 = t2
  | .smoothTriangle t1 a1 b1 c1, .smoothTriangle t2 a2 b2 c2 =>
      t1 = t2 && a1 = a2 && b1 = b2 && c1 = c2
  | .group l1, .group l2 => objListBeq l1 l2
  | _, _ => false

/-- Model of `std::ptr::eq` on `&Object` references: references are modelled
by values, pointer identity by structural identity.  In every scene of this
development distinct objects are structurally distinct, so the model agrees
with address comparison there. -/
def Object.ptrEq : Object → Object → Bool
  | .mk s1 m1 t1 i1 j1, .mk s2 m2 t2 i2 j2 =>
      Shape.beq s1 s2 && m1 = m2 && t1 = t2 && i1 = i2 && j1 = j2

def objListBeq : List Object → List Object → Bool
  | [], [] => true
  | x :: xs, y :: ys => Object.ptrEq x y && objListBeq xs ys
  | _, _ => false

end

/-- `Intersection` from `render/intersections.rs` over the exact-rational
model of `t`, together with the `u`/`v` barycentric fields used by the
triangle code (`with_u_v`; they default to 0). -/
structure Intn where
  t : ℚ
  object : Object
  u : ℚ
  v : ℚ

/-- `Intersection::new`. -/
def Intn.new (t : ℚ) (o : Object) : Intn := ⟨t, o, 0, 0⟩

/-- `Intersection::with_u_v`. -/
def Intn.withUV (i : Intn) (u v : ℚ) : Intn := ⟨i.t, i.object, u, v⟩

/-- `Shape::skip_world_to_local`: `matches!(self, Shape::Group(_))`. -/
def Shape.skipWorldToLocal : Shape → Bool
  | .group _ => true
  | _ => false

/-- `Sphere::intersect` from `render/shapes/sphere.rs`: the pushes it
performs, in order. -/
def sphereIntersect (ray : Ray) (obj : Object) : List Intn :=
  let sphereToRay := ray.origin.subP (Point.new 0 0 0)
  let a := ray.direction.dot ray.direction
  let b := 2 * ray.direction.dot sphereToRay
  let c := sphereToRay.dot sphereToRay - 1
  let discriminant := b ^ 2 - 4 * a * c
  if ¬ discriminant < 0 then
    let hit1 := (-b - qsqrt discriminant) / (2 * a)
    let hit2 := (-b + qsqrt discriminant) / (2 * a)
    [Intn.new hit1 obj, Intn.new hit2 obj]
  else []

/-- `Plane::intersect` from `render/shapes/plane.rs`. -/
def planeIntersect (ray : Ray) (obj : Object) : List Intn :=
  if EPSILON ≤ |ray.direction.y| then
    [Intn.new (-ray.origin.y / ray.direction.y) obj]
  else []

/-- `Triangle::intersect` (Möller–Trumbore) from `render/shapes/triangle.rs`. -/
def triIntersect (tri : Tri) (ray : Ray) (obj : Object) : List Intn :=
  let dirCrossE2 := ray.direction.cross tri.e2
  let det := tri.e1.dot dirCrossE2
  if |det| < EPSILON then [] else
  let f := 1 / det
  let p1ToOrigin := ray.origin.subP tri.p1
  let u := f * p1ToOrigin.dot dirCrossE2
  if u < 0 ∨ 1 < u then [] else
  let originCrossE1 := p1ToOrigin.cross tri.e1
  let v := f * ray.direction.dot originCrossE1
  if v < 0 ∨ 1 < u + v then [] else
  let t := f * tri.e2.dot originCrossE1
  [(Intn.new t obj).withUV u v]

mutual

/-- `Object::intersect`: unless the shape is a group, transform the ray into
local space by the cached inverse, then dispatch. -/
def Object.intersect : Object → Ray → List Intn
  | .mk s m t it itt, ray =>
    if s.skipWorldToLocal then
      Shape.intersectS s ray (.mk s m t it itt)
    else
      Shape.intersectS s (ray.withTransform it) (.mk s m t it itt)

/-- `Shape::intersect` dispatch.  `TestShape::intersect` stores the incoming
ray for tests and pushes nothing; the side effect is dropped here. -/
def Shape.intersectS : Shape → Ray → Object → List Intn
  | .testShape, _, _ => []
  | .sphere, ray, obj => sphereIntersect ray obj
  | .plane, ray, obj => planeIntersect ray obj
  | .triangle t, ray, obj => triIntersect t ray obj
  | .smoothTriangle t _ _ _, ray, obj => triIntersect t ray obj
  | .group children, ray, _ => intersectChildren children ray

/-- `Group::intersect`: forwards the ray unchanged to every child. -/
def intersectChildren : List Object → Ray → List Intn
  | [], _ => []
  | c :: cs, ray => c.intersect ray ++ intersectChildren cs ray

end

/-- `Shape::normal_at` dispatch from `render/shape.rs`.  Groups call
`unreachable!` in the source; the model returns the zero vector on that dead
branch.  The intersection argument is used only by smooth triangles. -/
def Shape.normalAtS (s : Shape) (localPoint : Point) (int : Intn) : Vect :=
  match s with
  | .testShape => Vect.new 0 0 0
  | .sphere => localPoint.subP (Point.new 0 0 0)
  | .plane => Vect.new 0 1 0
  | .triangle t => t.normal
  | .smoothTriangle _ n1 n2 n3 =>
      n2.mulS int.u + n3.mulS int.v + n1.mulS (1 - int.u - int.v)
  | .group _ => Vect.new 0 0 0

namespace Object

/-- `Object::world_to_object`. -/
def worldToObject (o : Object) (p : Point) : Point :=
  o.invTransformation.mulPoint p

/-- `Object::normal_to_world`. -/
def normalToWorld (o : Object) (normal : Vect) : Vect :=
  (o.invTransposeTransformation.mulVec normal).normalize

/-- `Object::normal_at`: inverse-transform the point, take the shape-local
normal, push it back to world space and normalise. -/
def normalAt (o : Object) (worldPoint : Point) (int : Intn) : Vect :=
  let localPoint := o.worldToObject worldPoint
  let localNormal := o.shape.normalAtS localPoint int
  o.normalToWorld localNormal

/-- `Object::children`. -/
def children (o : Object) : Option (List Object) :=
  match o.shape with
  | .group g => some g
  | _ => none

/-- `Object::new_sphere`. -/
def newSphere : Object :=
  .mk .sphere Material.defaultM Mat4.identity Mat4.identity Mat4.identity

/-- `Object::new_plane`. -/
def newPlane : Object :=
  .mk .plane Material.defaultM Mat4.identity Mat4.identity Mat4.identity

/-- `Object::new_test_shape`. -/
def newTestShape : Object :=
  .mk .testShape Material.defaultM Mat4.identity Mat4.identity Mat4.identity

/-- `Object::new_tri`. -/
def newTri (p1 p2 p3 : Point) : Object :=
  .mk (.triangle (Tri.new p1 p2 p3)) Material.defaultM
    Mat4.identity Mat4.identity Mat4.identity

/-- `Object::new_smooth_tri`. -/
def newSmoothTri (p1 p2 p3 : Point) (n1 n2 n3 : Vect) : Object :=
  .mk (.smoothTriangle (Tri.new p1 p2 p3) n1 n2 n3) Material.defaultM
    Mat4.identity Mat4.identity Mat4.identity

/-- The non-group branch of `Transformable::with_transform` for `Object`:
left-multiply the accumulated transform and recompute both cached inverses. -/
def withTransformPlain (o : Object) (m : Mat4) : Object :=
  let nt := m.mul o.transformation
  .mk o.shape o.material nt nt.inverse nt.inverse.transpose

/-- Materialable helpers used by the scenes below. -/
def withPattern (o : Object) (p : Pattern) : Object :=
  o.withMaterial { o.getMaterial with pattern := p }

def withAmbient (o : Object) (a : ℚ) : Object :=
  o.withMaterial { o.getMaterial with ambient := a }

def withDiffuse (o : Object) (d : ℚ) : Object :=
  o.withMaterial { o.getMaterial with diffuse := d }

def withSpecular (o : Object) (s : ℚ) : Object :=
  o.withMaterial { o.getMaterial with specular := s }

def withReflective (o : Object) (r : ℚ) : Object :=
  o.withMaterial { o.getMaterial with reflective := r }

def withTransparency (o : Object) (t : ℚ) : Object :=
  o.withMaterial { o.getMaterial with transparency := t }

def withRefractiveIndex (o : Object) (ri : ℚ) : Object :=
  o.withMaterial { o.getMaterial with refractiveIndex := ri }

end Object

/-- `translate` from `math/transformation.rs`. -/
def translateM (x y z : ℚ) : Mat4 :=
  { Mat4.identity with m03 := x, m13 := y, m23 := z }

/-- `scale` from `math/transformation.rs`. -/
def scaleM (x y z : ℚ) : Mat4 :=
  { Mat4.identity with m00 := x, m11 := y, m22 := z }

/-- `GroupTree` from `render/shapes/group.rs`. -/
inductive GroupTree where
  | leaf (o : Object)
  | node (o : Object) (children : List GroupTree)

mutual

/-- `GroupTree::from_object`: group objects become nodes whose children are
converted recursively, with empty subgroups pruned; everything else becomes a
leaf. -/
def GroupTree.fromObject : Object → GroupTree
  | .mk (.group g) m t it itt =>
      .node (.mk (.group g) m t it itt) (GroupTree.fromChildren g)
  | o => .leaf o

/-- The `filter_map` over a group's children in `from_object` (and in
`Object::new_group` / the group branch of `with_transform`, which inline the
same filter). -/
def GroupTree.fromChildren : List Object → List GroupTree
  | [] => []
  | c :: cs =>
    match c.shape with
    | .group g =>
      if g.isEmpty then GroupTree.fromChildren cs
      else GroupTree.fromObject c :: GroupTree.fromChildren cs
    | _ => GroupTree.fromObject c :: GroupTree.fromChildren cs

end

mutual

/-- `GroupTree::walk`.  The source applies `Object::with_transform` to each
leaf; leaves produced by `from_object` are never groups, so that call always
takes the non-group branch, inlined here as `withTransformPlain` (which makes
the recursion structural). -/
def GroupTree.walk : GroupTree → Mat4 → Object
  | .leaf o, transform => o.withTransformPlain transform
  | .node group children, transform =>
    let childTransform := transform.mul group.transformation
    let newChildren := GroupTree.walkList children childTransform
    let obj := group.withShape (.group newChildren)
    Object.newTestShape.withShape obj.shape

def GroupTree.walkList : List GroupTree → Mat4 → List Object
  | [], _ => []
  | t :: ts, transform => GroupTree.walk t transform :: GroupTree.walkList ts transform

end

/-- `GroupTree::build`. -/
def GroupTree.build (t : GroupTree) : Object :=
  t.walk Mat4.identity

/-- `Object::new_group`: filter out empty subgroups, wrap the rest under a
fresh test-shape node and build (pushing transforms down to the leaves). -/
def Object.newGroup (children : List Object) : Object :=
  let builders := GroupTree.fromChildren children
  (GroupTree.node Object.newTestShape builders).build

/-- `Transformable::with_transform` for `Object`.  For a group the children
are re-collected into a `GroupTree` under a transformed test-shape node and
rebuilt; the test shape is not a group, so its `with_transform` call is the
plain branch. -/
def Object.withTransform (o : Object) (m : Mat4) : Object :=
  match o.shape with
  | .group g =>
    (GroupTree.node (Object.newTestShape.withTransformPlain m)
      (GroupTree.fromChildren g)).build
  | _ => o.withTransformPlain m

/-- `Transformable::translate`. -/
def Object.translate (o : Object) (x y z : ℚ) : Object :=
  o.withTransform (translateM x y z)

/-- `Transformable::scale`. -/
def Object.scaleT (o : Object) (x y z : ℚ) : Object :=
  o.withTransform (scaleM x y z)

/-- `Pattern::pattern_at_object`: object-inverse then pattern-inverse
transform, then sample. -/
def Pattern.patternAtObject (p : Pattern) (obj : Object) (worldPoint : Point) : Color :=
  let objPoint := obj.invTransformation.mulPoint worldPoint
  let patternPoint := p.invTransform.mulPoint objPoint
  p.patternAt patternPoint

/-- The `Ord for Intersection` comparator of `render/intersections.rs`,
restricted to the rational (`NaN`-free) model of `t` used by the world-level
code.  The `NaN` branches of the comparator are modelled in the dedicated
container section below (`FT`, `cmpF`). -/
def cmpQ (a b : Intn) : Ordering :=
  if b.t < a.t then .gt else if a.t < b.t then .lt else .eq

/-- Insertion into a sorted list, comparator-driven.  Together with
`sortQ` this models `Vec::sort_unstable` under the `Ord` above. -/
def insertQ (x : Intn) : List Intn → List Intn
  | [] => [x]
  | y :: ys => if cmpQ x y = .lt then x :: y :: ys else y :: insertQ x ys

/-- Model of `Intersections::sort` (`sort_unstable`): insertion sort under
the translated comparator. -/
def sortQ : List Intn → List Intn
  | [] => []
  | x :: xs => insertQ x (sortQ xs)

/-- `Intersections::push`: append then re-sort. -/
def pushQ (s : List Intn) (x : Intn) : List Intn :=
  sortQ (s ++ [x])

/-- `Intersections::get_hit`: first entry with `t > 0`. -/
def getHitQ (s : List Intn) : Option Intn :=
  s.find? (fun i => 0 < i.t)

/-- `Intersections::get_hit_index`. -/
def getHitIndexQ (s : List Intn) : Option ℕ :=
  s.findIdx? (fun i => decide (0 < i.t))

/-- `HitComputation` from `render/intersections.rs`. -/
structure HitComp where
  t : ℚ
  object : Object
  point : Point
  eye : Vect
  reflect : Vect
  normal : Vect
  inside : Bool
  overPoint : Point
  underPoint : Point
  n1 : ℚ
  n2 : ℚ
  cosI : ℚ

/-- The containers toggle of `HitComputation::new`: if the object is on the
stack (by pointer identity) remove it, else push it. -/
def toggleContainers (cs : List Object) (obj : Object) : List Object :=
  match cs.findIdx? (fun o => Object.ptrEq o obj) with
  | some pos => cs.eraseIdx pos
  | none => cs ++ [obj]

/-- The `n1`/`n2` loop of `HitComputation::new`: walk the intersections with
a running index; at the target index read `n1` from the stack top before the
toggle and `n2` after it, then break.  If the loop ends without reaching the
target both stay unset. -/
def nWalk (target : ℕ) : List Intn → ℕ → List Object → Option ℚ × Option ℚ
  | [], _, _ => (none, none)
  | i :: rest, idx, containers =>
    if idx = target then
      let n1 := containers.getLast?.map fun o => o.getMaterial.refractiveIndex
      let cs2 := toggleContainers containers i.object
      let n2 := cs2.getLast?.map fun o => o.getMaterial.refractiveIndex
      (n1, n2)
    else
      nWalk target rest (idx + 1) (toggleContainers containers i.object)

/-- `HitComputation::new`.  `intersections[int_index]` panics when out of
range in Rust; the model substitutes a default intersection there (no theorem
below depends on that branch). -/
def HitComp.new (intersections : List Intn) (intIndex : ℕ) (ray : Ray) : HitComp :=
  let intersection := intersections.getD intIndex (Intn.new 0 Object.newTestShape)
  let ns := nWalk intIndex intersections 0 []
  let point := ray.positionAt intersection.t
  let eye := -ray.direction
  let object := intersection.object
  let t := intersection.t
  let normalRaw := intersection.object.normalAt point intersection
  let normalDotEye := normalRaw.dot eye
  let ni : Vect × Bool := if normalDotEye < 0 then (-normalRaw, true) else (normalRaw, false)
  let reflect := ray.direction.reflect ni.1
  let overPoint := point.addV (ni.1.mulS EPSILON)
  let underPoint := point.subV (ni.1.mulS EPSILON)
  let cosI := eye.dot ni.1
  ⟨t, object, point, eye, reflect, ni.1, ni.2, overPoint, underPoint,
   ns.1.getD 1, ns.2.getD 1, cosI⟩

/-- Shared tail of `HitComputation::schlick`. -/
def schlickTail (n1 n2 cos : ℚ) : ℚ :=
  let r0 := ((n1 - n2) / (n1 + n2)) ^ 2
  r0 + (1 - r0) * (1 - cos) ^ 5

/-- `HitComputation::schlick`. -/
def HitComp.schlick (c : HitComp) : ℚ :=
  let cos := c.cosI
  if c.n2 < c.n1 then
    let n := c.n1 / c.n2
    let sin2t := n ^ 2 * (1 - cos ^ 2)
    if 1 < sin2t then 1
    else schlickTail c.n1 c.n2 (qsqrt (1 - sin2t))
  else schlickTail c.n1 c.n2 cos

/-- Reference walk for claim C2, written from the specification text (§4.4):
process the sorted intersections in order maintaining a containers stack;
at the target intersection, `n1` is the refractive index at the stack top
before the toggle (1.0 when empty) and `n2` the one after (1.0 when empty);
then stop.  The target is tracked by countdown. -/
def specWalk : List Intn → ℕ → List Object → ℚ × ℚ
  | [], _, _ => (1, 1)
  | i :: _, 0, stack =>
    let n1 := (stack.getLast?.map fun o => o.getMaterial.refractiveIndex).getD 1
    let stack2 := toggleContainers stack i.object
    let n2 := (stack2.getLast?.map fun o => o.getMaterial.refractiveIndex).getD 1
    (n1, n2)
  | i :: rest, target + 1, stack => specWalk rest target (toggleContainers stack i.object)

/-- Specification-side `(n1, n2)` for a hit index. -/
def specN1N2 (xs : List Intn) (target : ℕ) : ℚ × ℚ :=
  specWalk xs target []

/-- `PointLight` from `render/lights/point_light.rs`. -/
structure PointLight where
  position : Point
  intensity : Color
deriving DecidableEq, Repr

/-- `PointLight::lighting`.  The two mutable accumulators `diffuse` and
`specular` (initialised to black and conditionally assigned) are modelled by
the pair `ds`. -/
def PointLight.lighting (self : PointLight) (object : Object) (material : Material)
    (point : Point) (eyeVector normalVector : Vect) (inShadow : Bool) : Color :=
  let effectiveColor := material.pattern.patternAtObject object point * self.intensity
  let lightVector := (self.position.subP point).normalize
  let ambient := effectiveColor.mulS material.ambient
  let lightDotNormal := lightVector.dot normalVector
  let ds : Color × Color :=
    if ¬ lightDotNormal < 0 ∧ ¬ inShadow then
      let diffuse := (effectiveColor.mulS material.diffuse).mulS lightDotNormal
      let reflectVector := - (lightVector.reflect normalVector)
      let reflectDotEye := reflectVector.dot eyeVector
      let specular :=
        if ¬ reflectDotEye < 0 then
          let factor := powf reflectDotEye material.shininess
          (self.intensity.mulS material.specular).mulS factor
        else Color.black
      (diffuse, specular)
    else (Color.black, Color.black)
  ambient + ds.1 + ds.2

/-- `Light` from `render/light.rs` (single `Point` variant). -/
inductive Light where
  | point (pl : PointLight)
deriving DecidableEq, Repr

/-- `Light::get_position`. -/
def Light.getPosition : Light → Point
  | .point p => p.position

/-- `Light::lighting` dispatch. -/
def Light.lighting (l : Light) (object : Object) (material : Material)
    (point : Point) (eyeVector normalVector : Vect) (inShadow : Bool) : Color :=
  match l with
  | .point p => p.lighting object material point eyeVector normalVector inShadow

/-- `World` from `render/world.rs`. -/
structure World where
  objects : List Object
  lights : List Light

/-- `World::intersect`: push every object's intersections into the buffer,
object by object, in order. -/
def World.intersectState (objects : List Object) (ray : Ray) (s : List Intn) : List Intn :=
  objects.foldl (fun st obj => (obj.intersect ray).foldl pushQ st) s

/-- `World::is_shadowed`: shadow ray toward the first light only. -/
def World.isShadowed (w : World) (point : Point) : Bool :=
  if w.lights.length = 0 then false
  else
    let light0 := w.lights.getD 0 (Light.point ⟨Point.new 0 0 0, Color.black⟩)
    let vector := light0.getPosition.subP point
    let distance := vector.magnitude
    let direction := vector.normalize
    let ray := Ray.new point direction
    let ints := World.intersectState w.objects ray []
    match getHitQ ints with
    | some hit => hit.t < distance
    | none => false

/-! The five mutually recursive rendering functions (`color_at`, `shade_hit`,
its fold over lights, `reflected_color`, `refracted_color`) always recurse
through `color_at` at depth `remaining - 1`.  The embedding makes that single
recursion structural: each body is written once with the recursive call
abstracted as `colorPrev : Ray → Color` (the source's
`self.color_at(·, remaining - 1)`), and `World.colorAtAux` ties the knot by
recursion on `remaining`.  The public wrappers below instantiate `colorPrev`
with `World.colorPrev`, recovering the source's call graph exactly. -/

/-- `World::reflected_color`, with the recursive call
`self.color_at(&reflect_ray, remaining - 1)` abstracted as `colorPrev`.
When `remaining = 0` the guard returns black before `colorPrev` is used. -/
def World.reflectedColorWith (colorPrev : Ray → Color) (comp : HitComp)
    (remaining : ℕ) : Color :=
  if remaining = 0 ∨ approxEq comp.object.getMaterial.reflective 0 then Color.black
  else
    let reflectRay := Ray.new comp.overPoint comp.reflect
    let color := colorPrev reflectRay
    color.mulS comp.object.getMaterial.reflective

/-- `World::refracted_color`, with the recursive call
`self.color_at(&refract_ray, remaining - 1)` abstracted as `colorPrev`. -/
def World.refractedColorWith (colorPrev : Ray → Color) (comp : HitComp)
    (remaining : ℕ) : Color :=
  if remaining = 0 ∨ approxEq comp.object.getMaterial.transparency 0 then Color.black
  else
    let nQuot := comp.n1 / comp.n2
    let cosI := comp.cosI
    let sin2t := nQuot * nQuot * (1 - cosI * cosI)
    if 1 < sin2t then Color.black
    else
      let cosT := qsqrt (1 - sin2t)
      let direction := comp.normal.mulS (nQuot * cosI - cosT) - comp.eye.mulS nQuot
      let refractRay := Ray.new comp.underPoint direction
      (colorPrev refractRay).mulS comp.object.getMaterial.transparency

/-- The body of the `shade_hit` fold, one light at a time.  Note how the
reflected and refracted contributions are recomputed and added inside every
iteration, exactly as in the source. -/
def World.shadeHitFoldWith (w : World) (colorPrev : Ray → Color) (comp : HitComp)
    (remaining : ℕ) : List Light → Color → Color
  | [], acc => acc
  | light :: rest, acc =>
    let material := comp.object.getMaterial
    let overPoint := comp.overPoint
    let eyeVector := comp.eye
    let normalVector := comp.normal
    let inShadow := w.isShadowed comp.overPoint
    let surface := light.lighting comp.object material overPoint eyeVector normalVector inShadow
    let reflected := World.reflectedColorWith colorPrev comp remaining
    let refracted := World.refractedColorWith colorPrev comp remaining
    let isReflective := 0 < comp.object.getMaterial.reflective
    let isTransparent := 0 < comp.object.getMaterial.transparency
    let acc2 :=
      if isReflective ∧ isTransparent then
        let reflectance := comp.schlick
        acc + surface + reflected.mulS reflectance + refracted.mulS (1 - reflectance)
      else
        acc + surface + reflected + refracted
    World.shadeHitFoldWith w colorPrev comp remaining rest acc2

/-- `World::shade_hit` with the abstracted recursive call: fold over the
lights starting from black. -/
def World.shadeHitWith (w : World) (colorPrev : Ray → Color) (comp : HitComp)
    (remaining : ℕ) : Color :=
  World.shadeHitFoldWith w colorPrev comp remaining w.lights Color.black

/-- `World::color_at`, by structural recursion on `remaining`: intersect
against all objects, take the hit (if any), build the hit computation and
shade it, shading at depth `remaining` with the recursive `color_at` at depth
`remaining - 1`.  At depth 0 the recursive call is unreachable (both
`reflected_color` and `refracted_color` return early on `remaining == 0`),
so any function may stand in for it. -/
def World.colorAtAux (w : World) : ℕ → Ray → Color
  | 0, ray =>
    let ints := World.intersectState w.objects ray []
    match getHitIndexQ ints with
    | some index => World.shadeHitWith w (fun _ => Color.black) (HitComp.new ints index ray) 0
    | none => Color.black
  | n + 1, ray =>
    let ints := World.intersectState w.objects ray []
    match getHitIndexQ ints with
    | some index =>
      World.shadeHitWith w (fun r => World.colorAtAux w n r)
        (HitComp.new ints index ray) (n + 1)
    | none => Color.black

/-- The `color_at` one level down: what `reflected_color`/`refracted_color`
call at `remaining - 1`.  At `remaining = 0` it is never invoked. -/
def World.colorPrev (w : World) (remaining : ℕ) : Ray → Color :=
  match remaining with
  | 0 => fun _ => Color.black
  | n + 1 => fun r => World.colorAtAux w n r

/-- `World::color_at`. -/
def World.colorAt (w : World) (ray : Ray) (remaining : ℕ) : Color :=
  World.colorAtAux w remaining ray

/-- `World::shade_hit`. -/
def World.shadeHit (w : World) (comp : HitComp) (remaining : ℕ) : Color :=
  World.shadeHitWith w (w.colorPrev remaining) comp remaining

/-- The `shade_hit` fold with the source's recursion. -/
def World.shadeHitFold (w : World) (comp : HitComp) (remaining : ℕ)
    (lights : List Light) (acc : Color) : Color :=
  World.shadeHitFoldWith w (w.colorPrev remaining) comp remaining lights acc

/-- `World::reflected_color`. -/
def World.reflectedColor (w : World) (comp : HitComp) (remaining : ℕ) : Color :=
  World.reflectedColorWith (w.colorPrev remaining) comp remaining

/-- `World::refracted_color`. -/
def World.refractedColor (w : World) (comp : HitComp) (remaining : ℕ) : Color :=
  World.refractedColorWith (w.colorPrev remaining) comp remaining

/-- `color_at` unfolds to hit-lookup plus `shade_hit`, as in the source. -/
theorem World.colorAt_eq (w : World) (ray : Ray) (remaining : ℕ) :
    World.colorAt w ray remaining =
      (match getHitIndexQ (World.intersectState w.objects ray []) with
       | some index =>
         w.shadeHit (HitComp.new (World.intersectState w.objects ray []) index ray) remaining
       | none => Color.black) := by
  cases remaining <;> rfl

/-! ### The `Intersections` container with IEEE `NaN` (claim C6)

`Intersection.t` is an arbitrary f64, including `NaN`.  `FT` models an f64
used only through the comparator and the `t > 0.0` test, so only its `NaN`-ness
and rational value matter.  The object reference is abstracted to an
identifier: the container code never inspects it. -/

inductive FT where
  | nan
  | fin (q : ℚ)
deriving DecidableEq, Repr

/-- A container entry: `t` plus the (opaque) object reference. -/
structure IntF where
  t : FT
  objId : ℕ
deriving DecidableEq, Repr

/-- `Ord for Intersection` from `render/intersections.rs`: `NaN` compares
`Greater` first from the left, then from the right; otherwise by `t`. -/
def cmpF (a b : IntF) : Ordering :=
  match a.t, b.t with
  | .nan, _ => .gt
  | _, .nan => .lt
  | .fin p, .fin q => if q < p then .gt else if p < q then .lt else .eq

/-- Comparator-driven insertion into a sorted list. -/
def insertF (x : IntF) : List IntF → List IntF
  | [] => [x]
  | y :: ys => if cmpF x y = .lt then x :: y :: ys else y :: insertF x ys

/-- Model of `Intersections::sort` (`Vec::sort_unstable` under the `Ord`
above) as insertion sort with the translated comparator.  For inputs on which
the comparator is a total order (at most one `NaN`) any correct sort agrees
with this model up to ties; for several `NaN`s Rust leaves the order
unspecified and the model picks this one. -/
def sortF : List IntF → List IntF
  | [] => []
  | x :: xs => insertF x (sortF xs)

/-- `Intersections::push`: append, then re-sort. -/
def pushF (s : List IntF) (x : IntF) : List IntF :=
  sortF (s ++ [x])

/-- `Intersections::new`. -/
def newF : List IntF := []

/-- `Intersections::with_intersections`: replace the contents and sort. -/
def withIntersectionsF (l : List IntF) : List IntF :=
  sortF l

/-- The `t > 0.0` test of `get_hit` (false on `NaN`). -/
def tPosF (i : IntF) : Bool :=
  match i.t with
  | .nan => false
  | .fin q => 0 < q

/-- `Intersections::get_hit`: first entry with `t > 0.0`. -/
def getHitF (s : List IntF) : Option IntF :=
  s.find? tPosF

/-- The container states reachable through the public operations. -/
inductive ReachF : List IntF → Prop where
  | new : ReachF newF
  | push (s : List IntF) (x : IntF) : ReachF s → ReachF (pushF s x)
  | withInts (l : List IntF) : ReachF (withIntersectionsF l)

/-- The ordering invariant of claim C6 between adjacent entries: finite `t`s
ascend, and no `NaN` entry precedes a finite one. -/
def ordOk (a b : IntF) : Bool :=
  match a.t, b.t with
  | .fin p, .fin q => p ≤ q
  | .fin _, .nan => true
  | .nan, .fin _ => false
  | .nan, .nan => true

/-! ### `Cube::intersect` over extended floats (claim C9)

The slab method multiplies numerators by `f64::INFINITY` when the direction
component is below `EPSILON`, so the computation lives in f64 extended by
`±∞` and `NaN`.  `XF` carries exactly those values; `ltX`/`leX` are IEEE
comparisons (false whenever `NaN` is involved) and `fmaxX`/`fminX` follow
`f64::max`/`f64::min`, which return the other operand when one is `NaN`. -/

inductive XF where
  | nan
  | ninf
  | pinf
  | fin (q : ℚ)
deriving DecidableEq, Repr

/-- IEEE `<` on the extended values. -/
def ltX : XF → XF → Bool
  | .nan, _ => false
  | _, .nan => false
  | .ninf, .ninf => false
  | .ninf, .pinf => true
  | .ninf, .fin _ => true
  | .pinf, _ => false
  | .fin _, .ninf => false
  | .fin _, .pinf => true
  | .fin a, .fin b => a < b

/-- IEEE `<=` on the extended values. -/
def leX (a b : XF) : Bool :=
  match a, b with
  | .nan, _ => false
  | _, .nan => false
  | _, _ => ltX a b || a = b

/-- `f64::max`: if one operand is `NaN` the other is returned. -/
def fmaxX (a b : XF) : XF :=
  if a = .nan then b else if b = .nan then a else if ltX a b then b else a

/-- `f64::min`: if one operand is `NaN` the other is returned. -/
def fminX (a b : XF) : XF :=
  if a = .nan then b else if b = .nan then a else if ltX a b then a else b

/-- A finite f64 times `f64::INFINITY`: sign-preserving infinity, `NaN` at
zero. -/
def mulInfX (q : ℚ) : XF :=
  if 0 < q then .pinf else if q < 0 then .ninf else .nan

/-- `Cube::check_axis`: divide the slab numerators when `|direction| >=
EPSILON`, otherwise multiply them by infinity; then swap so the smaller comes
first (an IEEE comparison, so `NaN` never swaps). -/
def checkAxis (origin direction : ℚ) : XF × XF :=
  let tminNum := -1 - origin
  let tmaxNum := 1 - origin
  let p : XF × XF :=
    if EPSILON ≤ |direction| then
      (.fin (tminNum / direction), .fin (tmaxNum / direction))
    else
      (mulInfX tminNum, mulInfX tmaxNum)
  if ltX p.2 p.1 then (p.2, p.1) else p

/-- The `(t_min, t_max)` pair of `Cube::intersect`: per-axis maxima and
minima under `f64::max`/`f64::min`. -/
def cubeTBounds (ray : Ray) : XF × XF :=
  let xs := checkAxis ray.origin.x ray.direction.x
  let ys := checkAxis ray.origin.y ray.direction.y
  let zs := checkAxis ray.origin.z ray.direction.z
  (fmaxX (fmaxX xs.1 ys.1) zs.1, fminX (fminX xs.2 ys.2) zs.2)

/-- `Cube::intersect`: return early when `t_max < 0`, push `t_min` and
`t_max` when `t_min <= t_max`, else nothing.  The result is the list of
pushed `t` values in push order. -/
def cubeIntersect (ray : Ray) : List XF :=
  let b := cubeTBounds ray
  if ltX b.2 (.fin 0) then []
  else if leX b.1 b.2 then [b.1, b.2] else []

/-- Specification-side slab bound for the degenerate axis, lower slot: `±∞`
by the sign of the numerator; a zero numerator (origin exactly on the
boundary) contributes the non-constraining `−∞`. -/
def specLoBound (n : ℚ) : XF :=
  if n < 0 then .ninf else if 0 < n then .pinf else .ninf

/-- Specification-side slab bound for the degenerate axis, upper slot: zero
numerator contributes the non-constraining `+∞`. -/
def specHiBound (n : ℚ) : XF :=
  if n < 0 then .ninf else if 0 < n then .pinf else .pinf

/-- `check_axis` as described by the claim: `±∞` substituted for the slab
bounds of a degenerate axis (no `NaN` is produced), then the same swap. -/
def specCheckAxis (origin direction : ℚ) : XF × XF :=
  let tminNum := -1 - origin
  let tmaxNum := 1 - origin
  let p : XF × XF :=
    if EPSILON ≤ |direction| then
      (.fin (tminNum / direction), .fin (tmaxNum / direction))
    else
      (specLoBound tminNum, specHiBound tmaxNum)
  if ltX p.2 p.1 then (p.2, p.1) else p

/-- Specification-side `(t_min, t_max)`. -/
def specTBounds (ray : Ray) : XF × XF :=
  let xs := specCheckAxis ray.origin.x ray.direction.x
  let ys := specCheckAxis ray.origin.y ray.direction.y
  let zs := specCheckAxis ray.origin.z ray.direction.z
  (fmaxX (fmaxX xs.1 ys.1) zs.1, fminX (fminX xs.2 ys.2) zs.2)

/-- Specification-side cube intersection. -/
def specCubeIntersect (ray : Ray) : List XF :=
  let b := specTBounds ray
  if ltX b.2 (.fin 0) then []
  else if leX b.1 b.2 then [b.1, b.2] else []

/-- All three direction components below `EPSILON` and the origin exactly at
the `(1,1,1)` or `(−1,−1,−1)` corner: the only rays on which `0·∞` `NaN`s
survive into `t_min`/`t_max`. -/
def allDegenCorner (ray : Ray) : Prop :=
  (|ray.direction.x| < EPSILON ∧ |ray.direction.y| < EPSILON ∧ |ray.direction.z| < EPSILON) ∧
    ((ray.origin.x = 1 ∧ ray.origin.y = 1 ∧ ray.origin.z = 1) ∨
     (ray.origin.x = -1 ∧ ray.origin.y = -1 ∧ ray.origin.z = -1))

instance (ray : Ray) : Decidable (allDegenCorner ray) := by
  unfold allDegenCorner; infer_instance

/-! ### Canvas and PPM serialisation (claim C8) -/

/-- `Canvas` from `draw/canvas.rs`: the pixel buffer holds the already
scaled 8-bit channel values (`Vec<u8>`, modelled as naturals). -/
structure Canvas where
  width : ℕ
  height : ℕ
  data : List ℕ

/-- The Rust `as u8` saturating cast of an f64: truncate toward zero and
clamp into `[0, 255]`. -/
def satCastU8 (q : ℚ) : ℕ :=
  (max 0 (min 255 (truncQ q))).toNat

/-- `Color::scale`: `((channel * 255.0) as u8).max(0).min(255)` per channel
(the `max`/`min` calls are no-ops on `u8`). -/
def Color.scale (c : Color) : ℕ × ℕ × ℕ :=
  let red := Nat.min (Nat.max (satCastU8 (c.r * 255)) 0) 255
  let green := Nat.min (Nat.max (satCastU8 (c.g * 255)) 0) 255
  let blue := Nat.min (Nat.max (satCastU8 (c.b * 255)) 0) 255
  (red, green, blue)

/-- Clamp a rational into an interval. -/
def qclamp (q lo hi : ℚ) : ℚ :=
  min hi (max lo q)

/-- Channel scaling as worded by the claim: clamp the float channel to
`[0,1]`, multiply by 255, truncate. -/
def specChannel (q : ℚ) : ℕ :=
  (truncQ (qclamp q 0 1 * 255)).toNat

/-- Claim-side `Color::scale`. -/
def specScale (c : Color) : ℕ × ℕ × ℕ :=
  (specChannel c.r, specChannel c.g, specChannel c.b)

/-- One pixel of the `Display for Canvas` body: `write!(f, "{} {} {} ", r,
g, b)` followed by a newline when `x > 1 && x % 4 == 0`.  Out-of-range reads
fall back to 0 (`.get(..).unwrap_or(&0)`). -/
def pixelStr (c : Canvas) (x y : ℕ) : String :=
  let index := (y * c.width + x) * 3
  let r := c.data.getD index 0
  let g := c.data.getD (index + 1) 0
  let b := c.data.getD (index + 2) 0
  Nat.repr r ++ " " ++ Nat.repr g ++ " " ++ Nat.repr b ++ " " ++
    (if 1 < x ∧ x % 4 = 0 then "\n" else "")

/-- `Display for Canvas`: the three header lines, then the row-major body. -/
def ppm (c : Canvas) : String :=
  "P3\n" ++ (Nat.repr c.width ++ " " ++ Nat.repr c.height ++ "\n") ++ "255\n" ++
    String.join ((List.range c.height).map fun y =>
      String.join ((List.range c.width).map fun x => pixelStr c x y))

/-- Claim-side pixel text: the three channels separated by single spaces, a
single space separating this pixel from the next, and a newline emitted after
every fourth column (columns `4, 8, 12, …`) within a row. -/
def specPixelStr (c : Canvas) (x y : ℕ) : String :=
  let index := (y * c.width + x) * 3
  let r := c.data.getD index 0
  let g := c.data.getD (index + 1) 0
  let b := c.data.getD (index + 2) 0
  Nat.repr r ++ " " ++ Nat.repr g ++ " " ++ Nat.repr b ++ " " ++
    (if 4 ≤ x ∧ x % 4 = 0 then "\n" else "")

/-- Claim-side serialisation: header exactly `"P3\n"`, `"<width>
<height>\n"`, `"255\n"`, then the pixels in row-major order. -/
def specPpm (c : Canvas) : String :=
  "P3\n" ++ (Nat.repr c.width ++ " " ++ Nat.repr c.height ++ "\n") ++ "255\n" ++
    String.join ((List.range c.height).map fun y =>
      String.join ((List.range c.width).map fun x => specPixelStr c x y))

/-! ### The OBJ parser (claims C3, C4)

Failure of the whole parse (a Rust panic) is modelled as `none`; a malformed
line is not a failure, it only bumps `lines_ignored`. -/

/-- `str::split(sep)`: split a character list at every separator; adjacent
separators yield empty pieces and the empty input yields one empty piece,
matching the Rust iterator. -/
def splitOnChar (sep : Char) : List Char → List (List Char)
  | [] => [[]]
  | c :: rest =>
    let r := splitOnChar sep rest
    if c = sep then [] :: r
    else
      match r with
      | h :: t => (c :: h) :: t
      | [] => [[c]]

/-- `FaceVertex` from `draw/io/obj.rs`. -/
structure FaceVertex where
  vertex : ℕ
  normal : Option ℕ
deriving DecidableEq, Repr

/-- `Face` from `draw/io/obj.rs`; the group name is a character list. -/
structure ObjFace where
  vertices : List FaceVertex
  group : Option (List Char)
deriving DecidableEq, Repr

/-- `ObjFileParser` state (the consumed input string is not stored). -/
structure ObjParser where
  linesIgnored : ℕ
  vertices : List Point
  normals : List Vect
  faces : List ObjFace
  currentGroup : Option (List Char)
  material : Material

/-- `ObjFileParser::new_input` state. -/
def ObjParser.init : ObjParser :=
  ⟨0, [], [], [], none, Material.defaultM⟩

/-- `str::lines`: split at `\n`, tolerate a trailing `\r` per line, and no
trailing empty line. -/
def rustLines (input : List Char) : List (List Char) :=
  let parts := splitOnChar '\n' input
  let parts := if parts.getLast? = some [] then parts.dropLast else parts
  parts.map fun line => if line.getLast? = some '\r' then line.dropLast else line

/-- Digit-accumulator core of `str::parse::<usize>`. -/
def digitsToNat : List Char → ℕ → Option ℕ
  | [], acc => some acc
  | c :: cs, acc =>
    if c.isDigit then digitsToNat cs (acc * 10 + (c.toNat - 48)) else none

/-- Model of `str::parse::<usize>`: an optional `+`, then one or more
digits. -/
def parseNatL : List Char → Option ℕ
  | [] => none
  | '+' :: rest => if rest.isEmpty then none else digitsToNat rest 0
  | s => digitsToNat s 0

/-- Model of `str::parse::<f64>` on the decimal fragment of its grammar
(optional sign, digits with at most one point, at least one digit).  The
exponent/`inf`/`NaN` forms never occur in the OBJ inputs considered here. -/
def parseF64 (s : List Char) : Option ℚ :=
  let core := fun (body : List Char) (sgn : ℚ) =>
    match splitOnChar '.' body with
    | [intPart] => (digitsToNat intPart 0).bind fun n =>
        if intPart.isEmpty then none else some (sgn * (n : ℚ))
    | [intPart, fracPart] =>
      if intPart.isEmpty ∧ fracPart.isEmpty then none
      else
        match digitsToNat intPart 0, digitsToNat fracPart 0 with
        | some iv, some fv =>
            some (sgn * ((iv : ℚ) + (fv : ℚ) / ((10 : ℚ) ^ fracPart.length)))
        | _, _ => none
    | _ => none
  match s with
  | '-' :: body => core body (-1)
  | '+' :: body => core body 1
  | body => core body 1

/-- `ObjFileParser::parse_vertex_line`. -/
def parseVertexLine (line : List Char) : Option Point :=
  let pStr := (splitOnChar ' ' line).drop 1
  if pStr.length < 3 then none
  else some ⟨(parseF64 (pStr.getD 0 [])).getD 0,
             (parseF64 (pStr.getD 1 [])).getD 0,
             (parseF64 (pStr.getD 2 [])).getD 0⟩

/-- `ObjFileParser::parse_normal_line`. -/
def parseNormalLine (line : List Char) : Option Vect :=
  let pStr := (splitOnChar ' ' line).drop 1
  if pStr.length < 3 then none
  else some ⟨(parseF64 (pStr.getD 0 [])).getD 0,
             (parseF64 (pStr.getD 1 [])).getD 0,
             (parseF64 (pStr.getD 2 [])).getD 0⟩

/-- `ObjFileParser::parse_face_entry`.  With a single field the vertex index
is parsed with fallback 0; otherwise the source reads `items[0]` and
`items[2]` — when the entry has exactly two fields (`i/t`) the `items[2]`
access panics, modelled as `none`. -/
def parseFaceEntry (entry : List Char) : Option (ℕ × Option ℕ) :=
  let items := splitOnChar '/' entry
  if items.length = 1 then some ((parseNatL entry).getD 0, none)
  else
    let vertex := (parseNatL (items.getD 0 [])).getD 0
    match items[2]? with
    | none => none
    | some s => some (vertex, parseNatL s)

/-- The entry map of `parse_face_line`; a panic in any entry aborts. -/
def parseFaceEntries : List (List Char) → Option (List FaceVertex)
  | [] => some []
  | e :: es =>
    match parseFaceEntry e with
    | none => none
    | some (v, n) => (parseFaceEntries es).map fun rest => ⟨v, n⟩ :: rest

/-- One iteration of `ObjFileParser::parse` over a line.  `none` models the
panic escaping from `parse_face_entry`. -/
def parseLine (st : ObjParser) (line : List Char) : Option ObjParser :=
  let cols := splitOnChar ' ' line
  if cols.length = 0 then some { st with linesIgnored := st.linesIgnored + 1 }
  else
    match cols.getD 0 [] with
    | ['v'] =>
      match parseVertexLine line with
      | some v => some { st with vertices := st.vertices ++ [v] }
      | none => some { st with linesIgnored := st.linesIgnored + 1 }
    | ['v', 'n'] =>
      match parseNormalLine line with
      | some v => some { st with normals := st.normals ++ [v] }
      | none => some { st with linesIgnored := st.linesIgnored + 1 }
    | ['f'] =>
      let tStr := (splitOnChar ' ' line).drop 1
      if tStr.length < 3 then some { st with linesIgnored := st.linesIgnored + 1 }
      else
        match parseFaceEntries tStr with
        | none => none
        | some vs => some { st with faces := st.faces ++ [⟨vs, st.currentGroup⟩] }
    | ['g'] =>
      let name := (((splitOnChar ' ' line).drop 1).take 1).foldl (· ++ ·) []
      some { st with currentGroup := some name }
    | _ => some { st with linesIgnored := st.linesIgnored + 1 }

/-- `ObjFileParser::parse` over a whole input. -/
def parseObj (input : List Char) : Option ObjParser :=
  (rustLines input).foldlM parseLine ObjParser.init

/-- `ObjFileParser::get_vertex`: 1-based index clamped into range.  (For
index 0 the Rust `usize` subtraction underflows — a debug-build panic — which
no input of this development exercises; the model clamps at 0.) -/
def getVertex (vertices : List Point) (index : ℕ) : Point :=
  vertices.getD (Nat.min (index - 1) (vertices.length - 1)) (Point.new 0 0 0)

/-- `ObjFileParser::get_normal`. -/
def getNormal (normals : List Vect) (index : ℕ) : Vect :=
  normals.getD (Nat.min (index - 1) (normals.length - 1)) (Vect.new 0 0 0)

/-- `ObjFileParser::fan_triangulation`: triangles `(v0, v_i, v_{i+1})` for
`i` in `1 .. len−1`; a triangle whose three corners all carry normal indices
becomes a smooth triangle. -/
def fanTriangulation (p : ObjParser) (vs : List FaceVertex) : List Object :=
  (List.range' 1 (vs.length - 2)).map fun index =>
    let v1 := vs.getD 0 ⟨0, none⟩
    let v2 := vs.getD index ⟨0, none⟩
    let v3 := vs.getD (index + 1) ⟨0, none⟩
    match v1.normal, v2.normal, v3.normal with
    | some n1, some n2, some n3 =>
      (Object.newSmoothTri (getVertex p.vertices v1.vertex)
        (getVertex p.vertices v2.vertex) (getVertex p.vertices v3.vertex)
        (getNormal p.normals n1) (getNormal p.normals n2)
        (getNormal p.normals n3)).withMaterial p.material
    | _, _, _ =>
      (Object.newTri (getVertex p.vertices v1.vertex)
        (getVertex p.vertices v2.vertex)
        (getVertex p.vertices v3.vertex)).withMaterial p.material

/-- `HashMap::insert` modelled on an association list: replace the value of
an existing key in place, else append.  Iteration order of the Rust map is
unspecified; this model fixes first-insertion order.  No theorem below
depends on the order of distinct keys. -/
def insertReplace (l : List (List Char × List Object)) (k : List Char) (v : List Object) :
    List (List Char × List Object) :=
  match l with
  | [] => [(k, v)]
  | (k0, v0) :: rest =>
    if k0 = k then (k0, v) :: rest else (k0, v0) :: insertReplace rest k v

/-- `ObjFileParser::build` after parsing: walk the faces accumulating
ungrouped triangles and the per-group map (`insert` replacing as in the
source), then either return the single group or a root group of the groups
followed by the ungrouped triangles. -/
def buildObj (p : ObjParser) : Object :=
  let acc := p.faces.foldl
    (fun (acc : List Object × List (List Char × List Object)) face =>
      let tris := fanTriangulation p face.vertices
      match face.group with
      | some grp => (acc.1, insertReplace acc.2 grp tris)
      | none => (acc.1 ++ tris, acc.2))
    ([], [])
  let groups := acc.2.map fun kv => Object.newGroup kv.2
  if groups.length = 1 then
    match groups with
    | g :: _ => g
    | [] => Object.newGroup []
  else Object.newGroup (groups ++ acc.1)

/-- `ObjFileParser::new_input(..).build()`: parse, then build; `none` when
parsing panics. -/
def objBuild (input : List Char) : Option Object :=
  (parseObj input).map buildObj

/-! ### Claim-side reference definitions -/

/-- The per-light surface contribution of `shade_hit` (claim C1's wording),
with the shadow test the source performs. -/
def lightSurface (w : World) (comp : HitComp) (light : Light) : Color :=
  light.lighting comp.object comp.object.getMaterial comp.overPoint comp.eye comp.normal
    (w.isShadowed comp.overPoint)

/-- Sum of the per-light surface contributions. -/
def surfaceSum (w : World) (comp : HitComp) : List Light → Color
  | [] => Color.black
  | l :: rest => lightSurface w comp l + surfaceSum w comp rest

/-- The reflected/refracted combination of `shade_hit`: Schlick-weighted when
the material is both reflective and transparent, plain sum otherwise. -/
def comboTerm (w : World) (comp : HitComp) (remaining : ℕ) : Color :=
  let reflected := w.reflectedColor comp remaining
  let refracted := w.refractedColor comp remaining
  if 0 < comp.object.getMaterial.reflective ∧ 0 < comp.object.getMaterial.transparency then
    reflected.mulS comp.schlick + refracted.mulS (1 - comp.schlick)
  else reflected + refracted

/-- `shade_hit` as asserted by claim C1: the surface sum plus exactly one
reflected and one refracted contribution. -/
def claimShadeHit (w : World) (comp : HitComp) (remaining : ℕ) : Color :=
  surfaceSum w comp w.lights + comboTerm w comp remaining

/-- The stripe colour as asserted by claim C7: `floor(|x|)` parity. -/
def claimStripeAt (a b : Color) (p : Point) : Color :=
  if (Int.floor |p.x|).natAbs % 2 = 0 then a else b

/-- The ambient term of claim C5: effective colour times the ambient
coefficient. -/
def ambientTerm (pl : PointLight) (object : Object) (material : Material) (point : Point) :
    Color :=
  (material.pattern.patternAtObject object point * pl.intensity).mulS material.ambient

/-! ### Colour algebra helpers -/

theorem Color.mulS_zero (c : Color) : c.mulS 0 = Color.black := by
  simp [Color.mulS, Color.black]

theorem Color.add_black_black (c : Color) : c + Color.black + Color.black = c := by
  rw [Color.add_black, Color.add_black]

/-! ### Concrete scenes used by counterexamples and witnesses -/

/-- Three nested glass spheres with refractive indices 1.5, 2.0, 2.5. -/
def gsA : Object := (Object.newSphere.withTransparency 1).withRefractiveIndex (3 / 2)

def gsB : Object := (Object.newSphere.withTransparency 1).withRefractiveIndex 2

def gsC : Object := (Object.newSphere.withTransparency 1).withRefractiveIndex (5 / 2)

/-- The reference intersection list of the glass-sphere scenario:
t-values 2, 2.75, 3.25, 4.75, 5.25, 6. -/
def gsInts : List Intn :=
  [Intn.new 2 gsA, Intn.new (11 / 4) gsB, Intn.new (13 / 4) gsC,
   Intn.new (19 / 4) gsB, Intn.new (21 / 4) gsC, Intn.new 6 gsA]

def gsRay : Ray := Ray.new (Point.new 0 0 (-4)) (Vect.new 0 0 1)

/-- A half-reflective plane (counterexample scene for C1). -/
def c1plane : Object := Object.newPlane.withReflective (1 / 2)

def c1light : Light := .point ⟨Point.new 0 10 0, Color.white⟩

/-- A world holding the reflective plane and a default sphere under TWO
identical point lights. -/
def c1world : World := ⟨[c1plane, Object.newSphere], [c1light, c1light]⟩

def c1ray : Ray := Ray.new (Point.new 0 1 0) (Vect.new 0 (-1) 0)

/-- The hit computation of the plane hit at `t = 1` of `c1ray`. -/
def c1comp : HitComp := HitComp.new [Intn.new 1 c1plane] 0 c1ray

/-- OBJ input with a single named group receiving two faces. -/
def c3input : List Char :=
  "v 0 0 0\nv 1 0 0\nv 0 1 0\nv 1 1 0\ng A\nf 1 2 3\nf 2 3 4\n".toList

/-- OBJ input whose face entries use the two-field `i/t` form. -/
def c4input : List Char :=
  "v 0 1 0\nv -1 0 0\nv 1 0 0\nf 1/1 2/2 3/3".toList

/-- A world with one plane and no lights. -/
def c10world : World := ⟨[Object.newPlane], []⟩

def c10ray : Ray := Ray.new (Point.new 0 1 0) (Vect.new 0 (-1) 0)

/-- The all-degenerate corner ray on which the cube slab method produces an
all-`NaN` `t_max`. -/
def cornerRay : Ray := Ray.new (Point.new 1 1 1) (Vect.new 0 0 0)

/-- A ray with a degenerate x-axis whose x-origin sits exactly on the slab
boundary `+1`. -/
def edgeRay : Ray := Ray.new (Point.new 1 0 0) (Vect.new 0 0 1)

/-! ### Claim C7 — stripe pattern -/

/-- C7, counterexample: at the point `(−1/2, 0, 0)` the stripe pattern
returns colour `b` (black here), but the claim's `floor(|x|)` rule —
`floor(1/2) = 0`, even — predicts colour `a` (white).  The source computes
`|floor(x)| = |−1| = 1`, odd. -/
theorem c7_stripe_counterexample :
    (Pattern.newStripe Color.white Color.black).patternAt (Point.new (-1 / 2) 0 0) ≠
      claimStripeAt Color.white Color.black (Point.new (-1 / 2) 0 0) := by
  have habs : |(-1 : ℚ) / 2| = 1 / 2 := by norm_num
  have habs2 : |(1 : ℚ) / 2| = 1 / 2 := by norm_num
  norm_num [Pattern.newStripe, Pattern.patternAt, Pattern.stripeAt, claimStripeAt,
    Point.new, habs, habs2, Color.white, Color.black, Color.mk.injEq]

/-- C7, amended: `pattern_at` of a stripe pattern selects `a` when
`|floor(x)|` is even and `b` when it is odd (equivalently, by the parity of
`floor(x)`), independent of `y` and `z`. -/
theorem c7_stripe_amended (a b : Color) (x y z y2 z2 : ℚ) :
    (Pattern.newStripe a b).patternAt (Point.new x y z) =
        (Pattern.newStripe a b).patternAt (Point.new x y2 z2) ∧
      ((Int.floor x).natAbs % 2 = 0 →
        (Pattern.newStripe a b).patternAt (Point.new x y z) = a) ∧
      ((Int.floor x).natAbs % 2 = 1 →
        (Pattern.newStripe a b).patternAt (Point.new x y z) = b) := by
  refine ⟨rfl, ?_, ?_⟩ <;> intro h <;>
    simp [Pattern.newStripe, Pattern.patternAt, Pattern.stripeAt, Point.new, h]

/-- C7, witness for the amended theorem at `x = 2` and `x = −1/2`. -/
theorem c7_stripe_amended_witness :
    (Pattern.newStripe Color.white Color.black).patternAt (Point.new 2 5 7) = Color.white ∧
      (Pattern.newStripe Color.white Color.black).patternAt (Point.new (-1 / 2) 0 0) =
        Color.black :=
  ⟨(c7_stripe_amended Color.white Color.black 2 5 7 0 0).2.1 (by norm_num),
   (c7_stripe_amended Color.white Color.black (-1 / 2) 0 0 0 0).2.2 (by norm_num)⟩

/-! ### Claim C5 — point-light Phong lighting -/

/-- C5, counterexample: with the light at `(1,0,0)`, the surface point at
the origin, unit normal `(0,0,1)` and eye vector `(−1,0,0)`, the light
direction is perpendicular to the normal (`L·N = 0 ≤ 0`), yet `lighting`
returns ambient plus a full specular term, not the ambient term alone: the
source only skips diffuse/specular when `L·N < 0` strictly. -/
theorem c5_lighting_counterexample :
    ((PointLight.mk (Point.new 1 0 0) Color.white).position.subP
          (Point.new 0 0 0)).normalize.dot (Vect.new 0 0 1) ≤ 0 ∧
      (PointLight.mk (Point.new 1 0 0) Color.white).lighting Object.newSphere
          Material.defaultM (Point.new 0 0 0) (Vect.new (-1) 0 0) (Vect.new 0 0 1) false ≠
        ambientTerm (PointLight.mk (Point.new 1 0 0) Color.white) Object.newSphere
          Material.defaultM (Point.new 0 0 0) := by
  have q1 : qsqrt 1 = 1 := qsqrt_val 1 1 (by norm_num) (by norm_num)
  have hp : powf 1 200 = 1 := by
    unfold powf
    rw [if_pos (show (200 : ℚ).den = 1 from rfl)]
    exact one_zpow _
  constructor
  · norm_num [Point.new, Vect.new, Point.subP, Vect.normalize, Vect.magnitude,
      Vect.divS, Vect.dot, q1]
  · norm_num [PointLight.lighting, ambientTerm, Pattern.patternAtObject,
      Pattern.patternAt, Pattern.defaultP, Material.defaultM, Object.newSphere,
      Object.getMaterial, Object.material, Object.invTransformation, Mat4.identity,
      Mat4.mulPoint, Point.new, Vect.new, Point.subP, Vect.normalize, Vect.magnitude,
      Vect.divS, Vect.dot, Vect.reflect, Vect.mulS, Vect.neg_def, Color.mul_def,
      Color.add_def, Color.mulS, Color.black, Color.white, powf, q1, hp,
      Color.mk.injEq]

/-- C5, amended: `lighting` returns exactly the ambient term whenever
`in_shadow` is set, and whenever `L·N < 0` strictly (in both cases the
diffuse and specular accumulators stay black). -/
theorem c5_lighting_amended (pl : PointLight) (object : Object) (material : Material)
    (point : Point) (eyeVector normalVector : Vect) (inShadow : Bool) :
    (inShadow = true →
      pl.lighting object material point eyeVector normalVector inShadow =
        ambientTerm pl object material point) ∧
    ((pl.position.subP point).normalize.dot normalVector < 0 →
      pl.lighting object material point eyeVector normalVector inShadow =
        ambientTerm pl object material point) := by
  constructor
  · intro h
    subst h
    simp only [PointLight.lighting, ambientTerm]
    rw [if_neg (by simp)]
    exact Color.add_black_black _
  · intro h
    simp only [PointLight.lighting, ambientTerm]
    rw [if_neg (by simp [h])]
    exact Color.add_black_black _

/-- C5, witness: the amended theorem applied with `in_shadow` set, and at a
configuration with `L·N < 0` (light below, normal up). -/
theorem c5_lighting_amended_witness :
    (PointLight.mk (Point.new 1 0 0) Color.white).lighting Object.newSphere
        Material.defaultM (Point.new 0 0 0) (Vect.new (-1) 0 0) (Vect.new 0 0 1) true =
      ambientTerm (PointLight.mk (Point.new 1 0 0) Color.white) Object.newSphere
        Material.defaultM (Point.new 0 0 0) ∧
    (PointLight.mk (Point.new 0 (-5) 0) Color.white).lighting Object.newSphere
        Material.defaultM (Point.new 0 0 0) (Vect.new (-1) 0 0) (Vect.new 0 1 0) false =
      ambientTerm (PointLight.mk (Point.new 0 (-5) 0) Color.white) Object.newSphere
        Material.defaultM (Point.new 0 0 0) :=
  ⟨(c5_lighting_amended _ _ _ _ _ _ true).1 rfl,
   (c5_lighting_amended _ _ _ _ _ _ false).2 (by
     have q25 : qsqrt 25 = 5 := qsqrt_val 25 5 (by norm_num) (by norm_num)
     norm_num [Point.new, Vect.new, Point.subP, Vect.normalize, Vect.magnitude,
       Vect.divS, Vect.dot, q25])⟩

/-! ### Claim C2 — the containers walk for n1/n2 -/

/-- The source loop (`nWalk`, counting the index up) computes the same pair
as the specification walk (`specWalk`, counting the target down), from any
starting stack. -/
theorem nWalk_eq_specWalk (xs : List Intn) :
    ∀ (d idx : ℕ) (cs : List Object),
      ((nWalk (idx + d) xs idx cs).1.getD 1, (nWalk (idx + d) xs idx cs).2.getD 1) =
        specWalk xs d cs := by
  induction xs with
  | nil => intro d idx cs; simp [nWalk, specWalk]
  | cons i rest ih =>
    intro d idx cs
    cases d with
    | zero =>
      simp [nWalk, specWalk]
    | succ e =>
      have hne : ¬ idx = idx + (e + 1) := by omega
      have harr : idx + (e + 1) = (idx + 1) + e := by omega
      simp only [nWalk, specWalk, if_neg hne]
      rw [harr]
      exact ih e (idx + 1) (toggleContainers cs i.object)

/-- C2: `HitComputation::new` computes `(n1, n2)` exactly by the
containers-stack walk of the specification (`n1` read at the stack top before
toggling the target's object, `n2` after, both defaulting to 1.0, membership
by object identity), and on the three nested glass spheres with refractive
indices 1.5, 2.0, 2.5 and t-values 2, 2.75, 3.25, 4.75, 5.25, 6 the pairs at
indices 0..5 are (1.0,1.5), (1.5,2.0), (2.0,2.5), (2.5,2.5), (2.5,1.5),
(1.5,1.0). -/
theorem c2_n1n2_walk :
    (∀ (xs : List Intn) (idx : ℕ) (ray : Ray),
      ((HitComp.new xs idx ray).n1, (HitComp.new xs idx ray).n2) = specN1N2 xs idx) ∧
    (List.range 6).map
        (fun i => ((HitComp.new gsInts i gsRay).n1, (HitComp.new gsInts i gsRay).n2)) =
      [(1, 3 / 2), (3 / 2, 2), (2, 5 / 2), (5 / 2, 5 / 2), (5 / 2, 3 / 2), (3 / 2, 1)] := by
  have hgen : ∀ (xs : List Intn) (idx : ℕ) (ray : Ray),
      ((HitComp.new xs idx ray).n1, (HitComp.new xs idx ray).n2) = specN1N2 xs idx := by
    intro xs idx ray
    have h := nWalk_eq_specWalk xs idx 0 []
    rw [Nat.zero_add] at h
    simpa [HitComp.new, specN1N2] using h
  refine ⟨hgen, ?_⟩
  have eval6 : ∀ i : ℕ, i < 6 → specN1N2 gsInts i =
      [(1, 3 / 2), ((3 : ℚ) / 2, (2 : ℚ)), (2, 5 / 2), (5 / 2, 5 / 2), (5 / 2, 3 / 2),
        (3 / 2, 1)].getD i (0, 0) := by
    intro i hi
    interval_cases i <;>
      norm_num [specN1N2, specWalk, toggleContainers, Object.ptrEq, Shape.beq,
        gsInts, gsA, gsB, gsC, Object.newSphere, Object.withTransparency,
        Object.withRefractiveIndex, Object.withMaterial, Object.getMaterial,
        Object.material, Object.shape, Object.transformation, Object.invTransformation,
        Object.invTransposeTransformation, Material.defaultM, Pattern.defaultP,
        Intn.new, List.findIdx?_cons, List.eraseIdx_cons_zero, List.eraseIdx_cons_succ,
        List.getLast?_singleton, List.getLast?_cons_cons, Material.mk.injEq,
        Pattern.mk.injEq, Mat4.mk.injEq, Color.mk.injEq, Prod.ext_iff]
  simp only [List.range_succ, List.range_zero, List.map_append, List.map_cons,
    List.map_nil, List.nil_append, List.cons_append]
  rw [hgen gsInts 0 gsRay, hgen gsInts 1 gsRay, hgen gsInts 2 gsRay,
    hgen gsInts 3 gsRay, hgen gsInts 4 gsRay, hgen gsInts 5 gsRay,
    eval6 0 (by omega), eval6 1 (by omega), eval6 2 (by omega), eval6 3 (by omega),
    eval6 4 (by omega), eval6 5 (by omega)]
  norm_num

/-! ### Claim C1 — shade_hit and the per-light fold -/

/-- One step of the `shade_hit` fold adds the light's surface contribution
plus one full reflected/refracted combination to the accumulator. -/
theorem shadeHitFold_cons (w : World) (comp : HitComp) (remaining : ℕ) (l : Light)
    (rest : List Light) (acc : Color) :
    World.shadeHitFold w comp remaining (l :: rest) acc =
      World.shadeHitFold w comp remaining rest
        (acc + lightSurface w comp l + comboTerm w comp remaining) := by
  by_cases hc : 0 < comp.object.getMaterial.reflective ∧ 0 < comp.object.getMaterial.transparency
  · simp only [World.shadeHitFold, World.shadeHitFoldWith, lightSurface, comboTerm,
      World.reflectedColor, World.refractedColor, if_pos hc]
    congr 1
    exact Color.add_assoc _ _ _
  · simp only [World.shadeHitFold, World.shadeHitFoldWith, lightSurface, comboTerm,
      World.reflectedColor, World.refractedColor, if_neg hc]
    congr 1
    exact Color.add_assoc _ _ _

/-- Closed form of the `shade_hit` fold: the accumulator, plus the sum of the
surface terms, plus the combination term once per light. -/
theorem shadeHitFold_closed (w : World) (comp : HitComp) (remaining : ℕ) :
    ∀ (lights : List Light) (acc : Color),
      World.shadeHitFold w comp remaining lights acc =
        acc + surfaceSum w comp lights +
          (comboTerm w comp remaining).mulS (lights.length : ℚ) := by
  intro lights
  induction lights with
  | nil =>
    intro acc
    simp only [World.shadeHitFold, World.shadeHitFoldWith, surfaceSum, List.length_nil,
      Nat.cast_zero, Color.mulS_zero, Color.add_black]
  | cons l rest ih =>
    intro acc
    rw [shadeHitFold_cons, ih]
    simp only [surfaceSum, List.length_cons, Color.add_def, Color.mulS, Color.mk.injEq]
    refine ⟨?_, ?_, ?_⟩ <;> push_cast <;> ring

/-! ### Evaluation chain for the C1 counterexample scene -/

/-- The reflection ray spawned at the plane hit of `c1ray`. -/
def rray1 : Ray := Ray.new (Point.new 0 (1 / 100000) 0) (Vect.new 0 1 0)

theorem eval_sphere_rray : Object.intersect Object.newSphere rray1 =
    [⟨-100001 / 100000, Object.newSphere, 0, 0⟩, ⟨99999 / 100000, Object.newSphere, 0, 0⟩] := by
  have q4 : qsqrt 4 = 2 := qsqrt_val 4 2 (by norm_num) (by norm_num)
  norm_num [rray1, Object.intersect, Shape.intersectS, Shape.skipWorldToLocal,
    sphereIntersect, Ray.withTransform, Object.newSphere, Object.getMaterial,
    Object.material, Object.shape, Object.transformation, Object.invTransformation,
    Object.invTransposeTransformation, Material.defaultM, Pattern.defaultP,
    Mat4.identity, Mat4.mulPoint, Mat4.mulVec, Ray.new, Point.new, Vect.new,
    Point.subP, Vect.dot, EPSILON, q4, Intn.new, Intn.mk.injEq, Point.mk.injEq,
    Vect.mk.injEq]

theorem eval_plane_rray : Object.intersect c1plane rray1 = [⟨-1 / 100000, c1plane, 0, 0⟩] := by
  norm_num [rray1, Object.intersect, Shape.intersectS, Shape.skipWorldToLocal, planeIntersect,
    Ray.withTransform, c1plane, Object.newPlane, Object.withReflective,
    Object.withMaterial, Object.getMaterial, Object.material, Object.shape,
    Object.transformation, Object.invTransformation, Object.invTransposeTransformation,
    Material.defaultM, Pattern.defaultP, Mat4.identity, Mat4.mulPoint, Mat4.mulVec,
    Ray.new, Point.new, Vect.new, EPSILON, Intn.new, Intn.mk.injEq, Point.mk.injEq,
    Vect.mk.injEq]

theorem eval_intersect_rray : World.intersectState c1world.objects rray1 [] =
    [⟨-100001 / 100000, Object.newSphere, 0, 0⟩, ⟨-1 / 100000, c1plane, 0, 0⟩,
     ⟨99999 / 100000, Object.newSphere, 0, 0⟩] := by
  have hobj : c1world.objects = [c1plane, Object.newSphere] := rfl
  rw [World.intersectState, hobj]
  simp only [List.foldl_cons, List.foldl_nil, eval_plane_rray, eval_sphere_rray]
  norm_num [pushQ, sortQ, insertQ, cmpQ]

/-- The shadow ray spawned at the sphere hit of `rray1`. -/
def sray1 : Ray := Ray.new (Point.new 0 (99999 / 100000) 0) (Vect.new 0 1 0)

theorem eval_sphere_sray : Object.intersect Object.newSphere sray1 =
    [⟨-199999 / 100000, Object.newSphere, 0, 0⟩, ⟨1 / 100000, Object.newSphere, 0, 0⟩] := by
  have q4 : qsqrt 4 = 2 := qsqrt_val 4 2 (by norm_num) (by norm_num)
  norm_num [sray1, Object.intersect, Shape.intersectS, Shape.skipWorldToLocal,
    sphereIntersect, Ray.withTransform, Object.newSphere, Object.getMaterial,
    Object.material, Object.shape, Object.transformation, Object.invTransformation,
    Object.invTransposeTransformation, Material.defaultM, Pattern.defaultP,
    Mat4.identity, Mat4.mulPoint, Mat4.mulVec, Ray.new, Point.new, Vect.new,
    Point.subP, Vect.dot, EPSILON, q4, Intn.new, Intn.mk.injEq, Point.mk.injEq,
    Vect.mk.injEq]

theorem eval_plane_sray : Object.intersect c1plane sray1 = [⟨-99999 / 100000, c1plane, 0, 0⟩] := by
  norm_num [sray1, Object.intersect, Shape.intersectS, Shape.skipWorldToLocal, planeIntersect,
    Ray.withTransform, c1plane, Object.newPlane, Object.withReflective,
    Object.withMaterial, Object.getMaterial, Object.material, Object.shape,
    Object.transformation, Object.invTransformation, Object.invTransposeTransformation,
    Material.defaultM, Pattern.defaultP, Mat4.identity, Mat4.mulPoint, Mat4.mulVec,
    Ray.new, Point.new, Vect.new, EPSILON, Intn.new, Intn.mk.injEq, Point.mk.injEq,
    Vect.mk.injEq]

theorem eval_shadow_sphere : c1world.isShadowed ⟨0, 99999 / 100000, 0⟩ = true := by
  show c1world.isShadowed (Point.new 0 (99999 / 100000) 0) = true
  have qA : qsqrt (810001800001 / 10000000000) = 900001 / 100000 :=
    qsqrt_val _ _ (by norm_num) (by norm_num)
  have hobj : c1world.objects = [c1plane, Object.newSphere] := rfl
  have hlights : c1world.lights = [c1light, c1light] := rfl
  rw [World.isShadowed]
  rw [if_neg (by rw [hlights]; simp)]
  simp only [hlights, List.getD_cons_zero, c1light, Light.getPosition]
  have hvec : (Point.new 0 10 0).subP (Point.new 0 (99999 / 100000) 0) =
      Vect.new 0 (900001 / 100000) 0 := by
    norm_num [Point.subP, Point.new, Vect.new]
  rw [hvec]
  have hmag : (Vect.new 0 (900001 / 100000) 0).magnitude = 900001 / 100000 := by
    norm_num [Vect.magnitude, Vect.new, qA]
  have hnorm : (Vect.new 0 (900001 / 100000) 0).normalize = Vect.new 0 1 0 := by
    norm_num [Vect.normalize, Vect.magnitude, Vect.new, Vect.divS, qA, Vect.mk.injEq]
  rw [hmag, hnorm, hobj]
  have hstate : World.intersectState [c1plane, Object.newSphere]
      (Ray.new (Point.new 0 (99999 / 100000) 0) (Vect.new 0 1 0)) [] =
      [⟨-199999 / 100000, Object.newSphere, 0, 0⟩, ⟨-99999 / 100000, c1plane, 0, 0⟩,
       ⟨1 / 100000, Object.newSphere, 0, 0⟩] := by
    rw [World.intersectState]
    have h1 := eval_plane_sray
    have h2 := eval_sphere_sray
    rw [sray1, Ray.new] at h1 h2
    simp only [List.foldl_cons, List.foldl_nil, Ray.new, h1, h2]
    norm_num [pushQ, sortQ, insertQ, cmpQ]
  rw [hstate]
  norm_num [getHitQ, List.find?]

/-- The intersections of `rray1` against `c1world`. -/
def ints1 : List Intn :=
  [⟨-100001 / 100000, Object.newSphere, 0, 0⟩, ⟨-1 / 100000, c1plane, 0, 0⟩,
   ⟨99999 / 100000, Object.newSphere, 0, 0⟩]

/-- The hit computation of the sphere hit of `rray1` (seen from inside). -/
def hcomp1 : HitComp :=
  ⟨99999 / 100000, Object.newSphere, ⟨0, 1, 0⟩, ⟨0, -1, 0⟩, ⟨0, -1, 0⟩, ⟨0, -1, 0⟩, true,
   ⟨0, 99999 / 100000, 0⟩, ⟨0, 100001 / 100000, 0⟩, 1, 1, 1⟩

theorem eval_hitcomp_rray : HitComp.new ints1 2 rray1 = hcomp1 := by
  have q1 : qsqrt 1 = 1 := qsqrt_val 1 1 (by norm_num) (by norm_num)
  norm_num [ints1, hcomp1, rray1, HitComp.new, nWalk, toggleContainers, Object.ptrEq,
    Shape.beq, c1plane, Object.newPlane, Object.newSphere, Object.withReflective,
    Object.withMaterial, Object.getMaterial, Object.material, Object.shape,
    Object.transformation, Object.invTransformation, Object.invTransposeTransformation,
    Object.normalAt, Object.worldToObject, Object.normalToWorld, Shape.normalAtS,
    Material.defaultM, Pattern.defaultP, Mat4.identity, Mat4.mulPoint, Mat4.mulVec,
    Ray.new, Ray.positionAt, Point.new, Vect.new, Point.subP, Point.addV, Point.subV,
    Vect.normalize, Vect.magnitude, Vect.divS, Vect.dot, Vect.reflect, Vect.mulS,
    Vect.neg_def, Vect.sub_eq, Vect.add_eq, Intn.new, EPSILON, q1,
    List.findIdx?_cons, List.eraseIdx_cons_succ, List.eraseIdx_cons_zero,
    List.getLast?_singleton, List.getLast?_cons_cons, Material.mk.injEq,
    Pattern.mk.injEq, Mat4.mk.injEq, Color.mk.injEq, HitComp.mk.injEq,
    Point.mk.injEq, Vect.mk.injEq]

theorem eval_surface_rray : lightSurface c1world hcomp1 c1light = ⟨1 / 10, 1 / 10, 1 / 10⟩ := by
  norm_num [lightSurface, hcomp1, c1light, Light.lighting, PointLight.lighting,
    eval_shadow_sphere, Pattern.patternAtObject, Pattern.patternAt, Pattern.defaultP,
    Object.newSphere, Object.getMaterial, Object.material, Object.shape,
    Object.invTransformation, Material.defaultM, Mat4.identity, Mat4.mulPoint,
    Point.new, Vect.new, Point.subP, Color.mul_def, Color.mulS, Color.white,
    Color.black, Color.add_def, Color.mk.injEq]

theorem eval_combo_rray : comboTerm c1world hcomp1 1 = Color.black := by
  have happ : approxEq 0 0 = true := by norm_num [approxEq, round5, roundAway, EPSILON]
  have h0 : hcomp1.object.getMaterial.reflective = 0 := rfl
  have h1 : hcomp1.object.getMaterial.transparency = 0 := rfl
  have hrefl : c1world.reflectedColor hcomp1 1 = Color.black := by
    norm_num [World.reflectedColor, World.reflectedColorWith, h0, happ]
  have hrefr : c1world.refractedColor hcomp1 1 = Color.black := by
    norm_num [World.refractedColor, World.refractedColorWith, h1, happ]
  rw [comboTerm, hrefl, hrefr, h0]
  rw [if_neg (by norm_num)]
  exact Color.add_black _

theorem eval_shade_rray : c1world.shadeHit hcomp1 1 = ⟨1 / 5, 1 / 5, 1 / 5⟩ := by
  show World.shadeHitFold c1world hcomp1 1 c1world.lights Color.black = _
  rw [shadeHitFold_closed]
  have hlights : c1world.lights = [c1light, c1light] := rfl
  rw [hlights]
  norm_num [surfaceSum, eval_surface_rray, eval_combo_rray, Color.add_def, Color.mulS,
    Color.black, Color.mk.injEq]

theorem eval_colorAt_rray : c1world.colorAt rray1 1 = ⟨1 / 5, 1 / 5, 1 / 5⟩ := by
  rw [World.colorAt_eq]
  rw [show World.intersectState c1world.objects rray1 [] = ints1 from eval_intersect_rray]
  have hidx : getHitIndexQ ints1 = some 2 := by
    norm_num [getHitIndexQ, ints1, List.findIdx?_cons]
  rw [hidx]
  show c1world.shadeHit (HitComp.new ints1 2 rray1) 1 = (⟨1 / 5, 1 / 5, 1 / 5⟩ : Color)
  rw [eval_hitcomp_rray, eval_shade_rray]

/-- The value of `c1comp`: the plane hit of `c1ray` at `t = 1`. -/
def hcomp0 : HitComp :=
  ⟨1, c1plane, ⟨0, 0, 0⟩, ⟨0, 1, 0⟩, ⟨0, 1, 0⟩, ⟨0, 1, 0⟩, false,
   ⟨0, 1 / 100000, 0⟩, ⟨0, -1 / 100000, 0⟩, 1, 1, 1⟩

theorem eval_hitcomp_c1 : c1comp = hcomp0 := by
  have q1 : qsqrt 1 = 1 := qsqrt_val 1 1 (by norm_num) (by norm_num)
  norm_num [q1, c1comp, hcomp0, c1ray, HitComp.new, nWalk, toggleContainers, Object.ptrEq,
    Shape.beq, c1plane, Object.newPlane, Object.newSphere, Object.withReflective,
    Object.withMaterial, Object.getMaterial, Object.material, Object.shape,
    Object.transformation, Object.invTransformation, Object.invTransposeTransformation,
    Object.normalAt, Object.worldToObject, Object.normalToWorld, Shape.normalAtS,
    Material.defaultM, Pattern.defaultP, Mat4.identity, Mat4.mulPoint, Mat4.mulVec,
    Ray.new, Ray.positionAt, Point.new, Vect.new, Point.subP, Point.addV, Point.subV,
    Vect.normalize, Vect.magnitude, Vect.divS, Vect.dot, Vect.reflect, Vect.mulS,
    Vect.neg_def, Vect.sub_eq, Vect.add_eq, Intn.new, EPSILON,
    List.findIdx?_cons, List.eraseIdx_cons_succ, List.eraseIdx_cons_zero,
    List.getLast?_singleton, List.getLast?_cons_cons, Material.mk.injEq,
    Pattern.mk.injEq, Mat4.mk.injEq, Color.mk.injEq, HitComp.mk.injEq,
    Point.mk.injEq, Vect.mk.injEq]

theorem eval_shadow_plane : c1world.isShadowed ⟨0, 1 / 100000, 0⟩ = true := by
  show c1world.isShadowed (Point.new 0 (1 / 100000) 0) = true
  have qA : qsqrt (999998000001 / 10000000000) = 999999 / 100000 :=
    qsqrt_val _ _ (by norm_num) (by norm_num)
  have hobj : c1world.objects = [c1plane, Object.newSphere] := rfl
  have hlights : c1world.lights = [c1light, c1light] := rfl
  rw [World.isShadowed]
  rw [if_neg (by rw [hlights]; simp)]
  simp only [hlights, List.getD_cons_zero, c1light, Light.getPosition]
  have hvec : (Point.new 0 10 0).subP (Point.new 0 (1 / 100000) 0) =
      Vect.new 0 (999999 / 100000) 0 := by
    norm_num [Point.subP, Point.new, Vect.new]
  rw [hvec]
  have hmag : (Vect.new 0 (999999 / 100000) 0).magnitude = 999999 / 100000 := by
    norm_num [Vect.magnitude, Vect.new, qA]
  have hnorm : (Vect.new 0 (999999 / 100000) 0).normalize = Vect.new 0 1 0 := by
    norm_num [Vect.normalize, Vect.magnitude, Vect.new, Vect.divS, qA, Vect.mk.injEq]
  rw [hmag, hnorm, hobj]
  have hstate : World.intersectState [c1plane, Object.newSphere]
      (Ray.new (Point.new 0 (1 / 100000) 0) (Vect.new 0 1 0)) [] =
      [⟨-100001 / 100000, Object.newSphere, 0, 0⟩, ⟨-1 / 100000, c1plane, 0, 0⟩,
       ⟨99999 / 100000, Object.newSphere, 0, 0⟩] := by
    rw [World.intersectState]
    have h1 := eval_plane_rray
    have h2 := eval_sphere_rray
    rw [rray1, Ray.new] at h1 h2
    simp only [List.foldl_cons, List.foldl_nil, Ray.new, h1, h2]
    norm_num [pushQ, sortQ, insertQ, cmpQ]
  rw [hstate]
  norm_num [getHitQ, List.find?]

theorem eval_surface_plane : lightSurface c1world hcomp0 c1light = ⟨1 / 10, 1 / 10, 1 / 10⟩ := by
  norm_num [lightSurface, hcomp0, c1light, Light.lighting, PointLight.lighting,
    eval_shadow_plane, Pattern.patternAtObject, Pattern.patternAt, Pattern.defaultP,
    c1plane, Object.newPlane, Object.withReflective, Object.withMaterial,
    Object.getMaterial, Object.material, Object.shape,
    Object.invTransformation, Material.defaultM, Mat4.identity, Mat4.mulPoint,
    Point.new, Vect.new, Point.subP, Color.mul_def, Color.mulS, Color.white,
    Color.black, Color.add_def, Color.mk.injEq]

theorem eval_combo_plane : comboTerm c1world hcomp0 2 = ⟨1 / 10, 1 / 10, 1 / 10⟩ := by
  have happ0 : approxEq 0 0 = true := by norm_num [approxEq, round5, roundAway, EPSILON]
  have habs : |(1 : ℚ) / 2| = 1 / 2 := by norm_num
  have happh : approxEq (1 / 2) 0 = false := by
    norm_num [approxEq, round5, roundAway, EPSILON, habs]
  have h0 : hcomp0.object.getMaterial.reflective = 1 / 2 := rfl
  have h1 : hcomp0.object.getMaterial.transparency = 0 := rfl
  have hrefr : c1world.refractedColor hcomp0 2 = Color.black := by
    norm_num [World.refractedColor, World.refractedColorWith, h1, happ0]
  have hray : Ray.new hcomp0.overPoint hcomp0.reflect = rray1 := rfl
  have hcp : World.colorPrev c1world 2 rray1 = c1world.colorAt rray1 1 := rfl
  have hrefl : c1world.reflectedColor hcomp0 2 = ⟨1 / 10, 1 / 10, 1 / 10⟩ := by
    rw [World.reflectedColor, World.reflectedColorWith]
    rw [if_neg (by norm_num [h0, happh])]
    simp only [hray, hcp, eval_colorAt_rray, h0]
    norm_num [Color.mulS, Color.mk.injEq]
  rw [comboTerm, hrefl, hrefr, h0, h1]
  rw [if_neg (by norm_num)]
  rw [Color.add_black]

/-- C1, counterexample: in the reflective-plane world with the same point
light listed twice, `shade_hit` at the plane hit differs from the claim's
surface-sum-plus-one-combination form: the reflected contribution is added
once per light, giving (2/5, 2/5, 2/5) instead of the claimed
(3/10, 3/10, 3/10). -/
theorem c1_shade_hit_counterexample :
    c1world.shadeHit c1comp 2 ≠ claimShadeHit c1world c1comp 2 := by
  have hlights : c1world.lights = [c1light, c1light] := rfl
  have hs : c1world.shadeHit c1comp 2 = ⟨2 / 5, 2 / 5, 2 / 5⟩ := by
    rw [eval_hitcomp_c1]
    show World.shadeHitFold c1world hcomp0 2 c1world.lights Color.black = _
    rw [shadeHitFold_closed, hlights]
    norm_num [surfaceSum, eval_surface_plane, eval_combo_plane, Color.add_def,
      Color.mulS, Color.black, Color.mk.injEq]
  have hcl : claimShadeHit c1world c1comp 2 = ⟨3 / 10, 3 / 10, 3 / 10⟩ := by
    rw [claimShadeHit, eval_hitcomp_c1, hlights]
    norm_num [surfaceSum, eval_surface_plane, eval_combo_plane, Color.add_def,
      Color.black, Color.mk.injEq]
  rw [hs, hcl]
  simp only [ne_eq, Color.mk.injEq]
  norm_num

/-- C1, amended: `shade_hit` equals the sum over lights of the per-light
surface contribution, plus one reflected/refracted combination PER LIGHT
(`|lights|` copies), the combination being Schlick-weighted exactly when the
material is both reflective and transparent.  With a single light this
coincides with the claim; with zero or several lights it does not. -/
theorem c1_shade_hit_amended (w : World) (comp : HitComp) (remaining : ℕ) :
    w.shadeHit comp remaining =
      surfaceSum w comp w.lights +
        (comboTerm w comp remaining).mulS (w.lights.length : ℚ) := by
  show World.shadeHitFold w comp remaining w.lights Color.black = _
  rw [shadeHitFold_closed, Color.black_add]

/-! ### Claim C6 helper lemmas -/

theorem cmpF_lt_ordOk (x y : IntF) (h : cmpF x y = Ordering.lt) : ordOk x y = true := by
  obtain ⟨xt, xo⟩ := x
  obtain ⟨yt, yo⟩ := y
  cases xt with
  | nan => simp [cmpF] at h
  | fin p =>
    cases yt with
    | nan => rfl
    | fin q =>
      simp only [cmpF] at h
      simp only [ordOk, decide_eq_true_eq]
      split_ifs at h with h1 h2
      exact le_of_lt h2

theorem cmpF_not_lt_ordOk (x y : IntF) (h : ¬ cmpF x y = Ordering.lt) : ordOk y x = true := by
  obtain ⟨xt, xo⟩ := x
  obtain ⟨yt, yo⟩ := y
  cases xt with
  | nan =>
    cases yt with
    | nan => rfl
    | fin q => rfl
  | fin p =>
    cases yt with
    | nan => exact absurd rfl h
    | fin q =>
      simp only [cmpF] at h
      simp only [ordOk, decide_eq_true_eq]
      split_ifs at h with h1 h2
      · exact le_of_lt h1
      · exact absurd rfl h
      · exact le_of_not_lt h2

theorem ordOk_trans (x y z : IntF) (h1 : ordOk x y = true) (h2 : ordOk y z = true) :
    ordOk x z = true := by
  obtain ⟨xt, xo⟩ := x
  obtain ⟨yt, yo⟩ := y
  obtain ⟨zt, zo⟩ := z
  cases xt <;> cases yt <;> cases zt <;> simp_all [ordOk]
  exact le_trans h1 h2

theorem mem_insertF (x w : IntF) (l : List IntF) (h : w ∈ insertF x l) : w = x ∨ w ∈ l := by
  induction l with
  | nil =>
    simp only [insertF, List.mem_singleton] at h
    exact Or.inl h
  | cons y ys ih =>
    simp only [insertF] at h
    split_ifs at h with hc
    · rcases List.mem_cons.mp h with h | h
      · exact Or.inl h
      · exact Or.inr h
    · rcases List.mem_cons.mp h with h | h
      · exact Or.inr (h ▸ List.mem_cons_self y ys)
      · rcases ih h with h | h
        · exact Or.inl h
        · exact Or.inr (List.mem_cons_of_mem y h)

theorem pairwise_insertF (x : IntF) (l : List IntF)
    (hl : l.Pairwise (fun a b => ordOk a b = true)) :
    (insertF x l).Pairwise (fun a b => ordOk a b = true) := by
  induction l with
  | nil => simp [insertF]
  | cons y ys ih =>
    rcases List.pairwise_cons.mp hl with ⟨hy, hys⟩
    by_cases hc : cmpF x y = Ordering.lt
    · rw [insertF, if_pos hc]
      refine List.pairwise_cons.mpr ⟨?_, hl⟩
      intro z hz
      rcases List.mem_cons.mp hz with rfl | hz
      · exact cmpF_lt_ordOk x z hc
      · exact ordOk_trans x y z (cmpF_lt_ordOk x y hc) (hy z hz)
    · rw [insertF, if_neg hc]
      refine List.pairwise_cons.mpr ⟨?_, ih hys⟩
      intro z hz
      rcases mem_insertF x z ys hz with rfl | hz
      · exact cmpF_not_lt_ordOk z y hc
      · exact hy z hz

theorem pairwise_sortF (l : List IntF) :
    (sortF l).Pairwise (fun a b => ordOk a b = true) := by
  induction l with
  | nil => simp [sortF]
  | cons x xs ih =>
    rw [sortF]
    exact pairwise_insertF x (sortF xs) ih

/-- C6: every container state reachable through the public operations is
sorted under the adjacent-entry order (finite `t`s ascending, `NaN` entries
after all finite ones), and the hit — the first entry with `t > 0` — always
has a positive finite `t`, never `NaN`. -/
theorem c6_container_sorted (s : List IntF) (h : ReachF s) :
    s.Pairwise (fun a b => ordOk a b = true) ∧
      (∀ i, getHitF s = some i → tPosF i = true ∧ i.t ≠ FT.nan) := by
  constructor
  · induction h with
    | new => simp [newF]
    | push s x _ _ => exact pairwise_sortF _
    | withInts l => exact pairwise_sortF l
  · intro i hi
    have ht : tPosF i = true := List.find?_some hi
    refine ⟨ht, ?_⟩
    intro hnan
    simp [tPosF, hnan] at ht

/-- C6, witness: a container built by two pushes (one entry with `NaN` t, one
with t = 1); the invariant holds and the hit is the finite positive entry. -/
theorem c6_container_sorted_witness :
    ReachF (pushF (pushF newF ⟨FT.nan, 0⟩) ⟨FT.fin 1, 1⟩) ∧
      (pushF (pushF newF ⟨FT.nan, 0⟩) ⟨FT.fin 1, 1⟩).Pairwise
        (fun a b => ordOk a b = true) ∧
      (∀ i, getHitF (pushF (pushF newF ⟨FT.nan, 0⟩) ⟨FT.fin 1, 1⟩) = some i →
        tPosF i = true ∧ i.t ≠ FT.nan) :=
  ⟨ReachF.push _ _ (ReachF.push _ _ ReachF.new),
   (c6_container_sorted _ (ReachF.push _ _ (ReachF.push _ _ ReachF.new))).1,
   (c6_container_sorted _ (ReachF.push _ _ (ReachF.push _ _ ReachF.new))).2⟩

/-! ### Claim C9 helper lemmas -/

theorem pinf_ne_nan : XF.pinf ≠ XF.nan := by simp

theorem ninf_ne_nan : XF.ninf ≠ XF.nan := by simp

theorem fin_ne_nan (q : ℚ) : XF.fin q ≠ XF.nan := by simp

theorem fmaxX_nan_left (a : XF) : fmaxX .nan a = a := by simp [fmaxX]

theorem fmaxX_nan_right (a : XF) : fmaxX a .nan = a := by cases a <;> simp [fmaxX]

theorem fmaxX_ninf_left (a : XF) (h : a ≠ .nan) : fmaxX .ninf a = a := by
  cases a <;> simp_all [fmaxX, ltX]

theorem fmaxX_ninf_right (a : XF) (h : a ≠ .nan) : fmaxX a .ninf = a := by
  cases a <;> simp_all [fmaxX, ltX]

theorem fmaxX_ne_nan (a b : XF) (ha : a ≠ .nan) (hb : b ≠ .nan) : fmaxX a b ≠ .nan := by
  unfold fmaxX
  split_ifs <;> assumption

theorem fminX_nan_left (a : XF) : fminX .nan a = a := by simp [fminX]

theorem fminX_nan_right (a : XF) : fminX a .nan = a := by cases a <;> simp [fminX]

theorem fminX_pinf_left (a : XF) (h : a ≠ .nan) : fminX .pinf a = a := by
  cases a <;> simp_all [fminX, ltX]

theorem fminX_pinf_right (a : XF) (h : a ≠ .nan) : fminX a .pinf = a := by
  cases a <;> simp_all [fminX, ltX]

theorem fminX_ne_nan (a b : XF) (ha : a ≠ .nan) (hb : b ≠ .nan) : fminX a b ≠ .nan := by
  unfold fminX
  split_ifs <;> assumption

/-- Folding `f64::max` over three slab minima ignores `NaN` entries exactly
as folding it over `−∞` entries, as long as not all three are `NaN`. -/
theorem fmax3_congr (a1 a2 a3 b1 b2 b3 : XF)
    (h1 : (a1 = b1 ∧ a1 ≠ .nan) ∨ (a1 = .nan ∧ b1 = .ninf))
    (h2 : (a2 = b2 ∧ a2 ≠ .nan) ∨ (a2 = .nan ∧ b2 = .ninf))
    (h3 : (a3 = b3 ∧ a3 ≠ .nan) ∨ (a3 = .nan ∧ b3 = .ninf))
    (hnot : ¬(a1 = .nan ∧ a2 = .nan ∧ a3 = .nan)) :
    fmaxX (fmaxX a1 a2) a3 = fmaxX (fmaxX b1 b2) b3 := by
  rcases h1 with ⟨he1, hn1⟩ | ⟨hn1, he1⟩ <;>
    rcases h2 with ⟨he2, hn2⟩ | ⟨hn2, he2⟩ <;>
      rcases h3 with ⟨he3, hn3⟩ | ⟨hn3, he3⟩ <;>
        subst he1 <;> subst he2 <;> subst he3
  · rfl
  · rw [hn3, fmaxX_nan_right, fmaxX_ninf_right _ (fmaxX_ne_nan _ _ hn1 hn2)]
  · rw [hn2, fmaxX_nan_right, fmaxX_ninf_right _ hn1]
  · rw [hn2, hn3, fmaxX_nan_right, fmaxX_nan_right,
      fmaxX_ninf_right _ hn1, fmaxX_ninf_right _ hn1]
  · rw [hn1, fmaxX_nan_left, fmaxX_ninf_left _ hn2]
  · rw [hn1, hn3, fmaxX_nan_left, fmaxX_nan_right, fmaxX_ninf_left _ hn2,
      fmaxX_ninf_right _ hn2]
  · rw [hn1, hn2, fmaxX_nan_left, fmaxX_nan_left, fmaxX_ninf_left _ (by simp),
      fmaxX_ninf_left _ hn3]
  · exact absurd ⟨hn1, hn2, hn3⟩ hnot

/-- Folding `f64::min` over three slab maxima ignores `NaN` entries exactly
as folding it over `+∞` entries, as long as not all three are `NaN`. -/
theorem fmin3_congr (a1 a2 a3 b1 b2 b3 : XF)
    (h1 : (a1 = b1 ∧ a1 ≠ .nan) ∨ (a1 = .nan ∧ b1 = .pinf))
    (h2 : (a2 = b2 ∧ a2 ≠ .nan) ∨ (a2 = .nan ∧ b2 = .pinf))
    (h3 : (a3 = b3 ∧ a3 ≠ .nan) ∨ (a3 = .nan ∧ b3 = .pinf))
    (hnot : ¬(a1 = .nan ∧ a2 = .nan ∧ a3 = .nan)) :
    fminX (fminX a1 a2) a3 = fminX (fminX b1 b2) b3 := by
  rcases h1 with ⟨he1, hn1⟩ | ⟨hn1, he1⟩ <;>
    rcases h2 with ⟨he2, hn2⟩ | ⟨hn2, he2⟩ <;>
      rcases h3 with ⟨he3, hn3⟩ | ⟨hn3, he3⟩ <;>
        subst he1 <;> subst he2 <;> subst he3
  · rfl
  · rw [hn3, fminX_nan_right, fminX_pinf_right _ (fminX_ne_nan _ _ hn1 hn2)]
  · rw [hn2, fminX_nan_right, fminX_pinf_right _ hn1]
  · rw [hn2, hn3, fminX_nan_right, fminX_nan_right,
      fminX_pinf_right _ hn1, fminX_pinf_right _ hn1]
  · rw [hn1, fminX_nan_left, fminX_pinf_left _ hn2]
  · rw [hn1, hn3, fminX_nan_left, fminX_nan_right, fminX_pinf_left _ hn2,
      fminX_pinf_right _ hn2]
  · rw [hn1, hn2, fminX_nan_left, fminX_nan_left, fminX_pinf_left _ (by simp),
      fminX_pinf_left _ hn3]
  · exact absurd ⟨hn1, hn2, hn3⟩ hnot

/-- Per-axis comparison of `check_axis` against the claim's version: they
agree (with `NaN`-free components) except on a degenerate axis whose origin
sits exactly on a slab boundary, where the code's pair carries a `NaN` where
the claim's carries the non-constraining infinity. -/
theorem checkAxis_rel (o d : ℚ) :
    (checkAxis o d = specCheckAxis o d ∧
      (checkAxis o d).1 ≠ .nan ∧ (checkAxis o d).2 ≠ .nan)
    ∨ (|d| < EPSILON ∧ o = -1 ∧ checkAxis o d = (.nan, .pinf) ∧
        specCheckAxis o d = (.ninf, .pinf))
    ∨ (|d| < EPSILON ∧ o = 1 ∧ checkAxis o d = (.ninf, .nan) ∧
        specCheckAxis o d = (.ninf, .pinf)) := by
  by_cases hd : EPSILON ≤ |d|
  · left
    refine ⟨by simp [checkAxis, specCheckAxis, hd], ?_, ?_⟩ <;>
      · simp only [checkAxis, if_pos hd]
        split_ifs <;> simp
  · have hd' : |d| < EPSILON := lt_of_not_le hd
    rcases lt_trichotomy o (-1) with ho | ho | ho
    · left
      have h1 : 0 < -1 - o := by linarith
      have h2 : 0 < 1 - o := by linarith
      refine ⟨?_, ?_, ?_⟩ <;>
        simp [checkAxis, specCheckAxis, hd, mulInfX, specLoBound, specHiBound, ltX,
          h1, h2, not_lt_of_gt h1, not_lt_of_gt h2]
    · right; left
      have h1 : -1 - o = 0 := by rw [ho]; ring
      have h2 : 0 < 1 - o := by rw [ho]; norm_num
      refine ⟨hd', ho, ?_, ?_⟩ <;>
        simp [checkAxis, specCheckAxis, hd, mulInfX, specLoBound, specHiBound, ltX,
          h1, h2, not_lt_of_gt h2]
    · rcases lt_trichotomy o 1 with ho1 | ho1 | ho1
      · left
        have h1 : -1 - o < 0 := by linarith
        have h2 : 0 < 1 - o := by linarith
        refine ⟨?_, ?_, ?_⟩ <;>
          simp [checkAxis, specCheckAxis, hd, mulInfX, specLoBound, specHiBound, ltX,
            h1, h2, not_lt_of_gt h1, not_lt_of_gt h2]
      · right; right
        have h1 : -1 - o < 0 := by rw [ho1]; norm_num
        have h2 : (1 : ℚ) - o = 0 := by rw [ho1]; ring
        refine ⟨hd', ho1, ?_, ?_⟩ <;>
          simp [checkAxis, specCheckAxis, hd, mulInfX, specLoBound, specHiBound, ltX,
            h1, h2, not_lt_of_gt h1]
      · left
        have h1 : -1 - o < 0 := by linarith
        have h2 : 1 - o < 0 := by linarith
        refine ⟨?_, ?_, ?_⟩ <;>
          simp [checkAxis, specCheckAxis, hd, mulInfX, specLoBound, specHiBound, ltX,
            h1, h2, not_lt_of_gt h1, not_lt_of_gt h2]


/-- Under the corner exclusion the code's `(t_min, t_max)` equals the
claim's. -/
theorem cubeTBounds_eq (ray : Ray) (h : ¬ allDegenCorner ray) :
    cubeTBounds ray = specTBounds ray := by
  have hx := checkAxis_rel ray.origin.x ray.direction.x
  have hy := checkAxis_rel ray.origin.y ray.direction.y
  have hz := checkAxis_rel ray.origin.z ray.direction.z
  rw [cubeTBounds, specTBounds, Prod.mk.injEq]
  constructor
  · refine fmax3_congr _ _ _ _ _ _ ?_ ?_ ?_ ?_
    · rcases hx with ⟨he, hn, _⟩ | ⟨_, _, hc, hs⟩ | ⟨_, _, hc, hs⟩
      · exact Or.inl ⟨congrArg Prod.fst he, hn⟩
      · exact Or.inr ⟨by rw [hc], by rw [hs]⟩
      · exact Or.inl ⟨by rw [hc, hs], by rw [hc]; simp⟩
    · rcases hy with ⟨he, hn, _⟩ | ⟨_, _, hc, hs⟩ | ⟨_, _, hc, hs⟩
      · exact Or.inl ⟨congrArg Prod.fst he, hn⟩
      · exact Or.inr ⟨by rw [hc], by rw [hs]⟩
      · exact Or.inl ⟨by rw [hc, hs], by rw [hc]; simp⟩
    · rcases hz with ⟨he, hn, _⟩ | ⟨_, _, hc, hs⟩ | ⟨_, _, hc, hs⟩
      · exact Or.inl ⟨congrArg Prod.fst he, hn⟩
      · exact Or.inr ⟨by rw [hc], by rw [hs]⟩
      · exact Or.inl ⟨by rw [hc, hs], by rw [hc]; simp⟩
    · rintro ⟨nx, ny, nz⟩
      rcases hx with ⟨_, hn, _⟩ | ⟨hdx, hox, _, _⟩ | ⟨_, _, hc, _⟩
      · exact hn nx
      · rcases hy with ⟨_, hn, _⟩ | ⟨hdy, hoy, _, _⟩ | ⟨_, _, hc, _⟩
        · exact hn ny
        · rcases hz with ⟨_, hn, _⟩ | ⟨hdz, hoz, _, _⟩ | ⟨_, _, hc, _⟩
          · exact hn nz
          · exact h ⟨⟨hdx, hdy, hdz⟩, Or.inr ⟨hox, hoy, hoz⟩⟩
          · rw [hc] at nz; simp at nz
        · rw [hc] at ny; simp at ny
      · rw [hc] at nx; simp at nx
  · refine fmin3_congr _ _ _ _ _ _ ?_ ?_ ?_ ?_
    · rcases hx with ⟨he, _, hn⟩ | ⟨_, _, hc, hs⟩ | ⟨_, _, hc, hs⟩
      · exact Or.inl ⟨congrArg Prod.snd he, hn⟩
      · exact Or.inl ⟨by rw [hc, hs], by rw [hc]; simp⟩
      · exact Or.inr ⟨by rw [hc], by rw [hs]⟩
    · rcases hy with ⟨he, _, hn⟩ | ⟨_, _, hc, hs⟩ | ⟨_, _, hc, hs⟩
      · exact Or.inl ⟨congrArg Prod.snd he, hn⟩
      · exact Or.inl ⟨by rw [hc, hs], by rw [hc]; simp⟩
      · exact Or.inr ⟨by rw [hc], by rw [hs]⟩
    · rcases hz with ⟨he, _, hn⟩ | ⟨_, _, hc, hs⟩ | ⟨_, _, hc, hs⟩
      · exact Or.inl ⟨congrArg Prod.snd he, hn⟩
      · exact Or.inl ⟨by rw [hc, hs], by rw [hc]; simp⟩
      · exact Or.inr ⟨by rw [hc], by rw [hs]⟩
    · rintro ⟨nx, ny, nz⟩
      rcases hx with ⟨_, _, hn⟩ | ⟨_, _, hc, _⟩ | ⟨hdx, hox, _, _⟩
      · exact hn nx
      · rw [hc] at nx; simp at nx
      · rcases hy with ⟨_, _, hn⟩ | ⟨_, _, hc, _⟩ | ⟨hdy, hoy, _, _⟩
        · exact hn ny
        · rw [hc] at ny; simp at ny
        · rcases hz with ⟨_, _, hn⟩ | ⟨_, _, hc, _⟩ | ⟨hdz, hoz, _, _⟩
          · exact hn nz
          · rw [hc] at nz; simp at nz
          · exact h ⟨⟨hdx, hdy, hdz⟩, Or.inl ⟨hox, hoy, hoz⟩⟩

/-- C9, amended: for every ray except the two all-degenerate corner rays
(all three direction components below `EPSILON` and the origin exactly at
`(1,1,1)` or `(−1,−1,−1)`), `Cube::intersect` follows the claim's algorithm:
`±∞` slab substitution, per-axis max/min folds, miss exactly on
`t_max < 0` or `¬(t_min ≤ t_max)`, both bounds pushed otherwise. -/
theorem c9_cube_amended (ray : Ray) (h : ¬ allDegenCorner ray) :
    cubeIntersect ray = specCubeIntersect ray := by
  rw [cubeIntersect, specCubeIntersect, cubeTBounds_eq ray h]

/-- C9, witness: a ray with a degenerate x axis whose x origin sits exactly
on the slab boundary is still handled as specified and hits the cube edge. -/
theorem c9_cube_amended_witness :
    ¬ allDegenCorner edgeRay ∧
      cubeIntersect edgeRay = specCubeIntersect edgeRay ∧
      cubeIntersect edgeRay = [.fin (-1), .fin 1] := by
  have hnd : ¬ allDegenCorner edgeRay := by
    norm_num [allDegenCorner, edgeRay, Ray.new, Point.new, Vect.new, EPSILON]
  exact ⟨hnd, c9_cube_amended edgeRay hnd,
    by norm_num [cubeIntersect, cubeTBounds, checkAxis, mulInfX, fmaxX, fminX,
      ltX, leX, EPSILON, edgeRay, Ray.new, Point.new, Vect.new,
      pinf_ne_nan, ninf_ne_nan, fin_ne_nan]⟩

/-- C9, counterexample: the all-degenerate corner ray at `(1,1,1)`.  The
claim's algorithm computes `t_min = −∞ ≤ t_max = +∞` and pushes both, but the
code's `0·∞` produces `NaN` for all three per-axis maxima, every IEEE
comparison is false, and the ray is reported as a miss. -/
theorem c9_cube_counterexample :
    allDegenCorner cornerRay ∧
      cubeIntersect cornerRay = [] ∧
      specCubeIntersect cornerRay = [.ninf, .pinf] := by
  refine ⟨?_, ?_, ?_⟩
  · norm_num [allDegenCorner, cornerRay, Ray.new, Point.new, Vect.new, EPSILON]
  · norm_num [cubeIntersect, cubeTBounds, checkAxis, mulInfX, fmaxX, fminX,
      ltX, leX, EPSILON, cornerRay, Ray.new, Point.new, Vect.new,
      pinf_ne_nan, ninf_ne_nan, fin_ne_nan]
  · norm_num [specCubeIntersect, specTBounds, specCheckAxis, specLoBound,
      specHiBound, fmaxX, fminX, ltX, leX, EPSILON, cornerRay, Ray.new,
      Point.new, Vect.new, pinf_ne_nan, ninf_ne_nan, fin_ne_nan]

/-! ### Claim C8 helper lemmas -/

theorem satCast_eq_specChannel (q : ℚ) :
    Nat.min (Nat.max (satCastU8 (q * 255)) 0) 255 = specChannel q := by
  have hle : satCastU8 (q * 255) ≤ 255 := by
    rw [satCastU8]
    have h1 : max 0 (min 255 (truncQ (q * 255))) ≤ (255 : ℤ) :=
      max_le (by norm_num) (min_le_left _ _)
    omega
  have hlhs : Nat.min (Nat.max (satCastU8 (q * 255)) 0) 255 = satCastU8 (q * 255) := by
    simp only [Nat.min_def, Nat.max_def]
    split_ifs <;> omega
  rw [hlhs]
  rcases lt_or_le q 0 with hq | hq
  · have hneg : q * 255 < 0 := mul_neg_of_neg_of_pos hq (by norm_num)
    have ht : truncQ (q * 255) ≤ 0 := by
      unfold truncQ
      rw [if_neg (not_le.mpr hneg)]
      exact Int.ceil_le.mpr (by exact_mod_cast le_of_lt hneg)
    have hclamp : qclamp q 0 1 = 0 := by
      rw [qclamp, max_eq_left (le_of_lt hq), min_eq_right (by norm_num)]
    rw [satCastU8, specChannel, hclamp]
    have : min 255 (truncQ (q * 255)) = truncQ (q * 255) :=
      min_eq_right (le_trans ht (by norm_num))
    rw [this, max_eq_left ht]
    norm_num [truncQ]
  · rcases le_or_lt q 1 with hq1 | hq1
    · have h0 : (0 : ℚ) ≤ q * 255 := mul_nonneg hq (by norm_num)
      have hformT : truncQ (q * 255) = Int.floor (q * 255) := by
        unfold truncQ
        rw [if_pos h0]
      have hfl : (0 : ℤ) ≤ Int.floor (q * 255) := Int.floor_nonneg.mpr h0
      have hfu : Int.floor (q * 255) ≤ 255 := by
        have : q * 255 ≤ 255 := by nlinarith
        calc Int.floor (q * 255) ≤ Int.floor (255 : ℚ) := Int.floor_le_floor this
          _ = 255 := by norm_num
      have hclamp : qclamp q 0 1 = q := by
        rw [qclamp, max_eq_right hq, min_eq_right hq1]
      rw [satCastU8, specChannel, hclamp, hformT, min_eq_right hfu, max_eq_right hfl]
    · have h255 : (255 : ℚ) ≤ q * 255 := by nlinarith
      have h0 : (0 : ℚ) ≤ q * 255 := le_trans (by norm_num) h255
      have hformT : truncQ (q * 255) = Int.floor (q * 255) := by
        unfold truncQ
        rw [if_pos h0]
      have hfl : (255 : ℤ) ≤ Int.floor (q * 255) := by
        rw [Int.le_floor]
        exact_mod_cast h255
      have hclamp : qclamp q 0 1 = 1 := by
        rw [qclamp, max_eq_right (le_trans zero_le_one (le_of_lt hq1)),
          min_eq_left (le_of_lt hq1)]
      rw [satCastU8, specChannel, hclamp, hformT,
        min_eq_left hfl, max_eq_right (by norm_num : (0 : ℤ) ≤ 255)]
      norm_num [truncQ]

theorem pixelStr_eq (c : Canvas) (x y : ℕ) : pixelStr c x y = specPixelStr c x y := by
  simp only [pixelStr, specPixelStr]
  have h : (1 < x ∧ x % 4 = 0) ↔ (4 ≤ x ∧ x % 4 = 0) := by omega
  rw [if_congr h rfl rfl]

/-- C8: the channel scaling of `Color::scale` coincides with
clamp-to-`[0,1]`, multiply by 255, truncate; and the serialized canvas text
is character-for-character the claim's format (header `"P3\n"`,
`"<width> <height>\n"`, `"255\n"`, row-major pixels, single-space
separators, a newline after every fourth pixel column of a row). -/
theorem c8_ppm_exact :
    (∀ col : Color, Color.scale col = specScale col) ∧
      (∀ c : Canvas, ppm c = specPpm c) := by
  constructor
  · intro col
    rw [Color.scale, specScale]
    rw [satCast_eq_specChannel, satCast_eq_specChannel, satCast_eq_specChannel]
  · intro c
    rw [ppm, specPpm]
    simp only [pixelStr_eq]

/-- Number of children when the object is a group. -/
def groupSize (o : Object) : ℕ :=
  match o.shape with
  | .group g => g.length
  | _ => 0

/-- C3: two `f` lines under the same `g A` group.  The claim expects both
faces' triangles to accumulate into group A (two triangles); the code's
`HashMap::insert` replaces the previous value, so the built group holds only
the last face's single triangle. -/
theorem c3_insert_replaces : (objBuild c3input).map groupSize = some 1 := rfl

/-- C4: a face line whose entries use the two-field `i/t` form.  The claim
says parsing never aborts, but `parse_face_entry` reads `items[2]`, which
panics on a two-field entry (modelled as `none` propagating out of the whole
parse). -/
theorem c4_face_entry_panics : parseObj c4input = none := rfl

/-! ### Claim C10 — worlds without lights -/

/-- C10: in a world with no lights, `color_at` is black for every ray and
recursion depth (the per-light fold of `shade_hit` is empty, discarding the
surface, reflected and refracted contributions even when the ray hits), and
`is_shadowed` is false at every point. -/
theorem c10_no_lights (w : World) (h : w.lights = []) :
    (∀ (ray : Ray) (remaining : ℕ), w.colorAt ray remaining = Color.black) ∧
      (∀ p : Point, w.isShadowed p = false) := by
  constructor
  · intro ray remaining
    rw [World.colorAt_eq]
    cases hidx : getHitIndexQ (World.intersectState w.objects ray []) with
    | none => rfl
    | some index =>
      simp only [World.shadeHit, World.shadeHitWith, h, World.shadeHitFoldWith]
  · intro p
    simp [World.isShadowed, h]

/-- C10, witness: the lightless plane world on a ray that does hit the plane
(the hit index exists), and an arbitrary shadow query point. -/
theorem c10_no_lights_witness :
    (getHitIndexQ (World.intersectState c10world.objects c10ray [])).isSome = true ∧
      c10world.colorAt c10ray 5 = Color.black ∧
      c10world.isShadowed (Point.new 3 4 5) = false :=
  ⟨by
     norm_num [c10world, c10ray, World.intersectState, Object.intersect, Object.newPlane,
       Shape.skipWorldToLocal, Shape.intersectS, planeIntersect, Ray.withTransform,
       Mat4.identity, Mat4.mulPoint, Mat4.mulVec, Ray.new, Point.new, Vect.new, EPSILON,
       pushQ, sortQ, insertQ, cmpQ, getHitIndexQ, List.findIdx?_cons, Intn.new],
   (c10_no_lights c10world rfl).1 c10ray 5,
   (c10_no_lights c10world rfl).2 (Point.new 3 4 5)⟩

end RT
